import Mathlib

/-!
Shallow embedding of the order-mutation pipeline of `hu6_ModPedido.py`
(Historia #6 — Modificación de pedidos): the `OrderRepository` conditional
update, the `ModEvent` priority key and `dataclass(order=True)` comparison,
the `ModService` worker loop with retry/backoff, the notification fan-out,
and the metrics aggregation; followed by theorems settling the claims about
this pipeline.

Conventions of the embedding:
* Timestamps are rationals (seconds).  The `confirmed_at` column holds a
  `"%Y-%m-%d %H:%M:%S"` string in the source; we model it as `Option ℚ`: the
  already-parsed timestamp, `none` for SQL NULL / the empty string (both are
  falsy in Python).  `to_ts` on a well-formed non-empty string is then the
  identity on `some`.
* `time.time()` reads are modeled by a clock function `ℕ → ℚ` together with
  an explicit read counter threaded through the control flow, one increment
  per `time.time()` call of the source.
* The SQLite `orders` table is a list of rows; `SELECT ... WHERE id=?` is
  `List.find?`, the dynamic `UPDATE` is a map over the rows.
* A sink (`KitchenBus`/`ClientBus`) invocation may raise; whether it does is
  a boolean parameter, and invocations are recorded in a trace list.
-/

namespace PizzaMod

/-- `EDIT_WINDOW_SECONDS = 5 * 60` of the source. -/
def EDIT_WINDOW_SECONDS : ℚ := 5 * 60

/-- `MAX_RETRIES = 3` of the source. -/
def MAX_RETRIES : ℕ := 3

/-- `INITIAL_BACKOFF_S = 0.25` of the source. -/
def INITIAL_BACKOFF_S : ℚ := 1/4

/-- One row of the `orders` table
(`id, client_name, product, size, qty, payment_method, state, created_at, confirmed_at`). -/
structure Order where
  id : Int
  client_name : String
  product : String
  size : String
  qty : Int
  payment_method : String
  state : String
  created_at : String
  confirmed_at : Option ℚ
  deriving Repr, DecidableEq

/-- A `changes` dict as built by the worker and consumed by
`apply_modification_atomic`: at most one value per mutable column, `none`
meaning the key is absent (the source treats a key that is absent and a key
mapped to `None` identically: both are skipped). -/
structure Changes where
  client_name : Option String
  product : Option String
  size : Option String
  qty : Option Int
  payment_method : Option String
  deriving Repr, DecidableEq

/-- The empty change set. -/
def Changes.empty : Changes := ⟨none, none, none, none, none⟩

/-- `to_ts`: parse of a confirmation timestamp.  On the already-parsed model
a present timestamp parses to itself and an absent/empty one to `None`. -/
def to_ts : Option ℚ → Option ℚ
  | none => none
  | some t => some t

/-- `OrderRepository.fetch_one`: `SELECT ... FROM orders WHERE id=?`. -/
def fetch_one (store : List Order) (order_id : Int) : Option Order :=
  store.find? (fun o => o.id == order_id)

/-- One `field=?` assignment of the dynamic `UPDATE`. -/
inductive FieldSet where
  | client_name (v : String)
  | product (v : String)
  | size (v : String)
  | qty (v : Int)
  | payment_method (v : String)
  deriving Repr, DecidableEq

/-- The `sets`/`params` list of `apply_modification_atomic`: iterate the five
mutable columns in the source's order, keeping those present (non-`None`) in
the change set. -/
def buildSets (cs : Changes) : List FieldSet :=
  (cs.client_name.map FieldSet.client_name).toList ++
  (cs.product.map FieldSet.product).toList ++
  (cs.size.map FieldSet.size).toList ++
  (cs.qty.map FieldSet.qty).toList ++
  (cs.payment_method.map FieldSet.payment_method).toList

/-- Apply one `field=?` assignment to a row. -/
def applyFieldSet (o : Order) : FieldSet → Order
  | .client_name v => { o with client_name := v }
  | .product v => { o with product := v }
  | .size v => { o with size := v }
  | .qty v => { o with qty := v }
  | .payment_method v => { o with payment_method := v }

/-- `UPDATE orders SET {sets} WHERE id=?` applied to one row. -/
def applySets (o : Order) (sets : List FieldSet) : Order :=
  sets.foldl applyFieldSet o

/-- Result of `apply_modification_atomic`: the table after the transaction,
the boolean return value, and the number of `time.time()` calls the run
performed (0 or 1: the call happens inside the window check, which is only
reached for a found row with a truthy `confirmed_at`). -/
structure ApplyResult where
  store : List Order
  ok : Bool
  timeReads : ℕ
  deriving Repr, DecidableEq

/-- `OrderRepository.apply_modification_atomic(order_id, changes)` at the
moment when `time.time()` returns `now`: read the row; fail (rollback,
`False`) if it does not exist, has no `confirmed_at`, its timestamp does not
parse, more than `EDIT_WINDOW_SECONDS` elapsed, the state is one of
`cancelled`/`cooking`/`done`, or no mutable field is present in `changes`;
otherwise run the dynamic `UPDATE` and commit (`True`). -/
def apply_modification_atomic (now : ℚ) (store : List Order) (order_id : Int)
    (changes : Changes) : ApplyResult :=
  match fetch_one store order_id with
  | none => ⟨store, false, 0⟩
  | some o =>
    match o.confirmed_at with
    | none => ⟨store, false, 0⟩
    | some confirmed_at =>
      match to_ts (some confirmed_at) with
      | none => ⟨store, false, 0⟩
      | some ts =>
        if now - ts > EDIT_WINDOW_SECONDS then ⟨store, false, 1⟩
        else if o.state = "cancelled" ∨ o.state = "cooking" ∨ o.state = "done" then
          ⟨store, false, 1⟩
        else if buildSets changes = [] then ⟨store, false, 1⟩
        else ⟨store.map (fun r =>
                if r.id == order_id then applySets r (buildSets changes) else r),
              true, 1⟩

/-- The `ModEvent` DTO.  `sort_index` is derived (see `sortIndex`); `req_id`
and `requested_at` are kept abstract as the strings the source stores
(`uuid4()` and `now_str()`). -/
structure ModEvent where
  urgent : Bool
  order_id : Int
  new_client_name : Option String := none
  new_product : Option String := none
  new_size : Option String := none
  new_qty : Option Int := none
  new_payment_method : Option String := none
  req_id : String
  requested_at : String
  deriving Repr, DecidableEq

/-- `ModEvent.__post_init__`: the quantity component of the priority key —
the stated quantity when it is a positive integer, else the sentinel 9999. -/
def effQty (ev : ModEvent) : Int :=
  match ev.new_qty with
  | some q => if q > 0 then q else 9999
  | none => 9999

/-- `ModEvent.__post_init__`: priority component, 0 if urgent else 1. -/
def prio (ev : ModEvent) : ℕ :=
  if ev.urgent then 0 else 1

/-- `ModEvent.sort_index = (prio, qty)` as computed in `__post_init__`. -/
def sortIndex (ev : ModEvent) : ℕ × Int :=
  (prio ev, effQty ev)

/-- Python's `str.strip()`: drop leading and trailing whitespace. -/
def pyStrip (s : String) : String :=
  ⟨((s.data.dropWhile Char.isWhitespace).reverse.dropWhile Char.isWhitespace).reverse⟩

/-- The worker's "Construir cambios válidos" block: a field enters the
`changes` dict when the corresponding event field is truthy (for strings:
not `None` and not empty; its stripped value is stored) and, for the
quantity, when it is a positive integer. -/
def buildChanges (ev : ModEvent) : Changes where
  client_name := match ev.new_client_name with
    | some s => if s = "" then none else some (pyStrip s)
    | none => none
  product := match ev.new_product with
    | some s => if s = "" then none else some (pyStrip s)
    | none => none
  size := match ev.new_size with
    | some s => if s = "" then none else some (pyStrip s)
    | none => none
  qty := match ev.new_qty with
    | some q => if q > 0 then some q else none
    | none => none
  payment_method := match ev.new_payment_method with
    | some s => if s = "" then none else some (pyStrip s)
    | none => none

/-- `valid_products = ("pepperoni","hawaiana")`. -/
def valid_products : List String := ["pepperoni", "hawaiana"]

/-- `valid_sizes = ("personal","mediana","grande")`. -/
def valid_sizes : List String := ["personal", "mediana", "grande"]

/-- `valid_pay = ("efectivo","tarjeta","transferencia")`. -/
def valid_pay : List String := ["efectivo", "tarjeta", "transferencia"]

/-- The worker's "Validación básica local": the first failing closed-set
membership check among product, size, payment method, with its `info.reason`
string; `none` when the change set passes. -/
def validationError (cs : Changes) : Option String :=
  match cs.product with
  | some p => if p ∉ valid_products then some "invalid_product" else
      match cs.size with
      | some s => if s ∉ valid_sizes then some "invalid_size" else
          match cs.payment_method with
          | some m => if m ∉ valid_pay then some "invalid_payment" else none
          | none => none
      | none =>
          match cs.payment_method with
          | some m => if m ∉ valid_pay then some "invalid_payment" else none
          | none => none
  | none =>
      match cs.size with
      | some s => if s ∉ valid_sizes then some "invalid_size" else
          match cs.payment_method with
          | some m => if m ∉ valid_pay then some "invalid_payment" else none
          | none => none
      | none =>
          match cs.payment_method with
          | some m => if m ∉ valid_pay then some "invalid_payment" else none
          | none => none

/-- `ModService.metrics`.  The per-code counters live in one dict with
`self.metrics.get(code, 0) + 1` updates, i.e. a total map with default 0;
we model the counter part as a total function from code strings to counts. -/
structure Metrics where
  counts : String → ℕ
  avg_latency_ms : ℚ
  processed : ℕ

/-- The initial `ModService.metrics` dict: every counter 0, average 0.0. -/
def metricsInit : Metrics :=
  { counts := fun _ => 0, avg_latency_ms := 0, processed := 0 }

/-- `ModService._update_latency(ms)`: reads `n = metrics["processed"]`
(note: `_finish` has already incremented it) and sets
`avg' = (avg*n + ms)/(n+1)`. -/
def update_latency (m : Metrics) (ms : ℚ) : Metrics :=
  { m with avg_latency_ms := (m.avg_latency_ms * m.processed + ms) / (m.processed + 1) }

/-- `ModService._finish` effect on the metrics: increment `processed`,
increment the counter of `code`, then `_update_latency(latency_ms)`. -/
def finishMetrics (m : Metrics) (code : String) (latency_ms : ℚ) : Metrics :=
  let m1 := { m with processed := m.processed + 1 }
  let m2 := { m1 with counts := fun s => if s = code then m1.counts s + 1 else m1.counts s }
  update_latency m2 latency_ms

/-- One sink invocation of the fan-out, with its arguments. -/
inductive SinkCall where
  | kitchen (order_id : Int) (changes : Changes)
  | client (order_id : Int) (changes : Changes)
  deriving Repr, DecidableEq

/-- Result of the retry loop (`for attempt in range(1, MAX_RETRIES+1)`). -/
structure LoopResult where
  applied : Bool
  code : String
  reason : Option String
  store : List Order
  applyCalls : ℕ
  fetchCalls : ℕ
  sleeps : List ℚ
  k : ℕ
  deriving Repr

/-- The worker's retry loop, recursing on the remaining attempts: call
`apply_modification_atomic`; on success stop; otherwise re-read the order —
missing/unconfirmed breaks with `MOD_FAIL`/`not_found_or_unconfirmed`, an
elapsed window breaks with `TIME_EXPIRED`/`edit_window_passed`, and anything
else is treated as contention: sleep `backoff`, double it, try again.
`code`/`reason` carry the values the surrounding scope had before the loop;
`k` is the `time.time()` read counter. -/
def retryLoop (clock : ℕ → ℚ) (order_id : Int) (cs : Changes) :
    ℕ → ℚ → String → Option String → List Order → ℕ → LoopResult
  | 0, _, code, reason, store, k =>
      ⟨false, code, reason, store, 0, 0, [], k⟩
  | n + 1, backoff, code, reason, store, k =>
      let a := apply_modification_atomic (clock k) store order_id cs
      let k1 := k + a.timeReads
      if a.ok then
        ⟨true, code, reason, a.store, 1, 0, [], k1⟩
      else
        match fetch_one store order_id with
        | none =>
            ⟨false, "MOD_FAIL", some "not_found_or_unconfirmed", store, 1, 1, [], k1⟩
        | some current =>
          match current.confirmed_at with
          | none =>
              ⟨false, "MOD_FAIL", some "not_found_or_unconfirmed", store, 1, 1, [], k1⟩
          | some confirmed_at =>
            match to_ts (some confirmed_at) with
            | none =>
                ⟨false, "TIME_EXPIRED", some "edit_window_passed", store, 1, 1, [], k1⟩
            | some ts =>
              if clock k1 - ts > EDIT_WINDOW_SECONDS then
                ⟨false, "TIME_EXPIRED", some "edit_window_passed", store, 1, 1, [], k1 + 1⟩
              else
                let r := retryLoop clock order_id cs n (backoff * 2) code reason store (k1 + 1)
                ⟨r.applied, r.code, r.reason, r.store, r.applyCalls + 1, r.fetchCalls + 1,
                  backoff :: r.sleeps, r.k⟩

/-- Everything observable about one processed event: final outcome code and
rejection reason, the table and metrics afterwards, the sink invocations in
order, how often the store was written to / read, the backoff sleeps, whether
the update was applied, and the final `time.time()` read counter. -/
structure WorkerResult where
  code : String
  reason : Option String
  store : List Order
  metrics : Metrics
  sinkCalls : List SinkCall
  applyCalls : ℕ
  fetchCalls : ℕ
  sleeps : List ℚ
  applied : Bool
  k : ℕ

/-- `ModService._finish(ev, code, t0, info)` packaged with the rest of the
observables: latency is `(time.time() - t0) * 1000`. -/
def finishResult (clock : ℕ → ℚ) (m : Metrics) (t0 : ℚ) (code : String)
    (reason : Option String) (store : List Order) (sinkCalls : List SinkCall)
    (applyCalls fetchCalls : ℕ) (sleeps : List ℚ) (applied : Bool) (k : ℕ) :
    WorkerResult :=
  let latency_ms := (clock k - t0) * 1000
  ⟨code, reason, store, finishMetrics m code latency_ms, sinkCalls,
    applyCalls, fetchCalls, sleeps, applied, k + 1⟩

/-- The body of `ModService._worker_loop` for one popped non-sentinel event:
take `t0`, build the change set, run the local validation (`MOD_FAIL`
without touching the store on failure), run the retry loop, on a
non-applied exit normalize any code other than `TIME_EXPIRED` to
`MOD_FAIL`, on an applied update invoke the kitchen sink then the client
sink — each guarded by its own `try`, a raise (the `kitchenFails` /
`clientFails` parameters) downgrading the outcome to `SYNC_FAIL` — and
finally `_finish`. -/
def processEvent (clock : ℕ → ℚ) (kitchenFails clientFails : Bool)
    (store : List Order) (m : Metrics) (ev : ModEvent) (k : ℕ) : WorkerResult :=
  let t0 := clock k
  let cs := buildChanges ev
  match validationError cs with
  | some r =>
      finishResult clock m t0 "MOD_FAIL" (some r) store [] 0 0 [] false (k + 1)
  | none =>
      let L := retryLoop clock ev.order_id cs MAX_RETRIES INITIAL_BACKOFF_S
        "MOD_FAIL" none store (k + 1)
      if L.applied then
        let sinkCalls := [SinkCall.kitchen ev.order_id cs, SinkCall.client ev.order_id cs]
        let sync_ok := (!kitchenFails) && (!clientFails)
        let code := if sync_ok then "MOD_OK" else "SYNC_FAIL"
        finishResult clock m t0 code L.reason L.store sinkCalls
          L.applyCalls L.fetchCalls L.sleeps true L.k
      else
        let code := if L.code = "TIME_EXPIRED" then L.code else "MOD_FAIL"
        finishResult clock m t0 code L.reason L.store []
          L.applyCalls L.fetchCalls L.sleeps false L.k

/-- One iteration of `_worker_loop` after a successful `pq.get`: the sentinel
(`order_id == -1`, pushed by `stop`) breaks the loop (`none`), any other
event is processed to exactly one finalized result. -/
def workerStep (clock : ℕ → ℚ) (kitchenFails clientFails : Bool)
    (store : List Order) (m : Metrics) (ev : ModEvent) (k : ℕ) :
    Option WorkerResult :=
  if ev.order_id = -1 then none
  else some (processEvent clock kitchenFails clientFails store m ev k)

/-- The worker loop over a sequence of popped events (each with the raise
behaviour of the two sinks while it is processed), threading table, metrics
and clock reads; the sentinel stops the loop. -/
def runWorker (clock : ℕ → ℚ) :
    List (ModEvent × Bool × Bool) → List Order → Metrics → ℕ →
    List Order × Metrics × ℕ
  | [], store, m, k => (store, m, k)
  | (ev, kF, cF) :: rest, store, m, k =>
      match workerStep clock kF cF store m ev k with
      | none => (store, m, k)
      | some r => runWorker clock rest r.store r.metrics r.k

/-! ### The priority queue

`ModService.pq` is a `queue.PriorityQueue[ModEvent]` and `ModEvent` carries
`@dataclass(order=True)`, so items are compared as the tuple of all fields in
declaration order: `(sort_index, urgent, order_id, new_client_name,
new_product, new_size, new_qty, new_payment_method, req_id, requested_at)`.
Python's tuple comparison walks the components, skipping equal ones and
deciding at the first unequal pair; comparing `None` with a value at that
point raises `TypeError`, which we model as `Except.error ()`.

`queue.PriorityQueue` is heap-backed with the library contract "the lowest
valued entries are retrieved first"; which entry is retrieved among several
mutually-equal minima is not part of the contract (the heap is not stable),
and no theorem below depends on that choice — `pqPop` picks the earliest
minimal entry. -/

/-- Python comparison of two naturals as an `Ordering`. -/
def pyCmpNat (a b : ℕ) : Ordering :=
  if a < b then .lt else if a = b then .eq else .gt

/-- Python comparison of two integers as an `Ordering`. -/
def pyCmpInt (a b : Int) : Ordering :=
  if a < b then .lt else if a = b then .eq else .gt

/-- Python comparison of two booleans (`False < True`, as the ints 0/1). -/
def pyCmpBool (a b : Bool) : Ordering :=
  pyCmpNat (if a then 1 else 0) (if b then 1 else 0)

/-- Python comparison of two strings (lexicographic on code points). -/
def pyCmpStr (a b : String) : Ordering :=
  if a < b then .lt else if a = b then .eq else .gt

/-- Python comparison of two optional values: `None == None`, two present
values compare by `c`, and `None` against a value raises `TypeError`. -/
def pyCmpOpt {α : Type} (c : α → α → Ordering) :
    Option α → Option α → Except Unit Ordering
  | none, none => .ok .eq
  | some a, some b => .ok (c a b)
  | none, some _ => .error ()
  | some _, none => .error ()

/-- Python comparison of two `sort_index` tuples `(prio, qty)`. -/
def pyCmpPair (a b : ℕ × Int) : Ordering :=
  match pyCmpNat a.1 b.1 with
  | .eq => pyCmpInt a.2 b.2
  | r => r

/-- Lexicographic chaining: move to the next component only on equality,
propagating a decided comparison or a `TypeError`. -/
def lexE (c : Except Unit Ordering) (rest : Unit → Except Unit Ordering) :
    Except Unit Ordering :=
  match c with
  | .ok .eq => rest ()
  | r => r

/-- The `dataclass(order=True)` comparison of two `ModEvent`s: the field
tuples compared component-wise in declaration order, `sort_index` first. -/
def pyCmp (a b : ModEvent) : Except Unit Ordering :=
  lexE (.ok (pyCmpPair (sortIndex a) (sortIndex b))) fun _ =>
  lexE (.ok (pyCmpBool a.urgent b.urgent)) fun _ =>
  lexE (.ok (pyCmpInt a.order_id b.order_id)) fun _ =>
  lexE (pyCmpOpt pyCmpStr a.new_client_name b.new_client_name) fun _ =>
  lexE (pyCmpOpt pyCmpStr a.new_product b.new_product) fun _ =>
  lexE (pyCmpOpt pyCmpStr a.new_size b.new_size) fun _ =>
  lexE (pyCmpOpt pyCmpInt a.new_qty b.new_qty) fun _ =>
  lexE (pyCmpOpt pyCmpStr a.new_payment_method b.new_payment_method) fun _ =>
  lexE (.ok (pyCmpStr a.req_id b.req_id)) fun _ =>
  .ok (pyCmpStr a.requested_at b.requested_at)

/-- `a < b` on `ModEvent` as the heap uses it. -/
def pyLt (a b : ModEvent) : Except Unit Bool :=
  (pyCmp a b).map (fun o => o = .lt)

/-- `pq.put(ev)`: the queue holds its pending entries; a push adds one. -/
def pqPut (q : List ModEvent) (ev : ModEvent) : List ModEvent :=
  q ++ [ev]

/-- Scan for the entry the heap yields: the least entry under `pyLt`
(earliest among mutually-equal minima), propagating `TypeError`. -/
def pqSelect : ModEvent → List ModEvent → Except Unit ModEvent
  | cand, [] => .ok cand
  | cand, x :: rest =>
    match pyLt x cand with
    | .error u => .error u
    | .ok b => pqSelect (if b then x else cand) rest

/-- `pq.get()`: `none` when the queue is empty (the call blocks), otherwise
the retrieved lowest entry and the remaining queue. -/
def pqPop : List ModEvent → Option (Except Unit (ModEvent × List ModEvent))
  | [] => none
  | x :: rest =>
    some (match pqSelect x rest with
      | .error u => .error u
      | .ok e => .ok (e, (x :: rest).erase e))

/-! ### Derived definitions and concrete fixtures used by the theorems -/

/-- The row produced by a successful `UPDATE`: the five mutable columns take
the change-set value when present, everything else (`id`, `state`,
`created_at`, `confirmed_at`) keeps its prior value; rows with another id
are untouched. -/
def updatedRow (order_id : Int) (cs : Changes) (o : Order) : Order :=
  if o.id == order_id then
    { o with
      client_name := cs.client_name.getD o.client_name,
      product := cs.product.getD o.product,
      size := cs.size.getD o.size,
      qty := cs.qty.getD o.qty,
      payment_method := cs.payment_method.getD o.payment_method }
  else o

/-- A confirmed order (confirmed at time 0), well inside every closed set. -/
def orderConfirmed : Order :=
  ⟨1, "ana", "pepperoni", "personal", 1, "efectivo", "confirmed",
    "2025-01-01 12:00:00", some 0⟩

/-- A one-row table holding `orderConfirmed`. -/
def storeConfirmed : List Order := [orderConfirmed]

/-- A confirmed order already moved to the kitchen (`state = "cooking"`). -/
def orderCooking : Order :=
  ⟨2, "bob", "pepperoni", "personal", 1, "efectivo", "cooking",
    "2025-01-01 12:00:00", some 0⟩

/-- A one-row table holding `orderCooking`. -/
def storeCooking : List Order := [orderCooking]

/-- A change set touching only the quantity. -/
def csQty3 : Changes := ⟨none, none, none, some 3, none⟩

/-- The backoff sleeps of `n` contended attempts starting at `b`
(`time.sleep(backoff); backoff *= 2`). -/
def backoffSeq : ℕ → ℚ → List ℚ
  | 0, _ => []
  | n + 1, b => b :: backoffSeq n (b * 2)

/-- An order that was never confirmed. -/
def orderDraft : Order :=
  ⟨3, "eve", "pepperoni", "personal", 1, "efectivo", "draft",
    "2025-01-01 12:00:00", none⟩

/-- A one-row table holding `orderDraft`. -/
def storeDraft : List Order := [orderDraft]

/-- A quantity-only mutation request for order 1. -/
def evQty3 : ModEvent :=
  { urgent := false, order_id := 1, new_qty := some 3,
    req_id := "req-1", requested_at := "2025-01-01 12:01:00" }

/-- A request asking for a product outside the menu. -/
def evVeggie : ModEvent :=
  { urgent := false, order_id := 1, new_product := some "vegetarian",
    req_id := "req-2", requested_at := "2025-01-01 12:01:00" }

/-- The metrics invariant of C10: the processed total is the sum of the four
outcome counters. -/
def MetricsInv (m : Metrics) : Prop :=
  m.processed =
    m.counts "MOD_OK" + m.counts "TIME_EXPIRED" + m.counts "SYNC_FAIL" +
      m.counts "MOD_FAIL"

/-- Strict order on `sort_index` keys (Python tuple `<` on `(prio, qty)`). -/
def keyLt (a b : ℕ × Int) : Prop :=
  a.1 < b.1 ∨ (a.1 = b.1 ∧ a.2 < b.2)

/-- Reflexive order on `sort_index` keys. -/
def keyLe (a b : ℕ × Int) : Prop :=
  a.1 < b.1 ∨ (a.1 = b.1 ∧ a.2 ≤ b.2)

/-- Two non-urgent, quantity-2 requests distinguished only by order id. -/
def evA : ModEvent :=
  { urgent := false, order_id := 5, new_qty := some 2, req_id := "a",
    requested_at := "2025-01-01 12:01:00" }

/-- As `evA` but for order 3. -/
def evB : ModEvent :=
  { urgent := false, order_id := 3, new_qty := some 2, req_id := "b",
    requested_at := "2025-01-01 12:01:00" }

/-- An urgent request for order 9 with quantity 5. -/
def evU : ModEvent :=
  { urgent := true, order_id := 9, new_qty := some 5, req_id := "u",
    requested_at := "2025-01-01 12:01:00" }

/-- A non-urgent request for order 9 with quantity 2. -/
def evN : ModEvent :=
  { urgent := false, order_id := 9, new_qty := some 2, req_id := "n",
    requested_at := "2025-01-01 12:01:00" }

/-! ### Helper lemmas about the conditional update -/

theorem applySets_buildSets (o : Order) (cs : Changes) :
    applySets o (buildSets cs) =
      { o with
        client_name := cs.client_name.getD o.client_name,
        product := cs.product.getD o.product,
        size := cs.size.getD o.size,
        qty := cs.qty.getD o.qty,
        payment_method := cs.payment_method.getD o.payment_method } := by
  rcases cs with ⟨c, p, s, q, pm⟩
  cases c <;> cases p <;> cases s <;> cases q <;> cases pm <;> rfl

/-- Every run of `apply_modification_atomic` either commits the full dynamic
`UPDATE` (and then the change set was non-empty) or leaves the table
untouched and returns `False`. -/
theorem apply_cases (now : ℚ) (store : List Order) (order_id : Int) (cs : Changes) :
    ((apply_modification_atomic now store order_id cs).store =
        store.map (updatedRow order_id cs) ∧
      (apply_modification_atomic now store order_id cs).ok = true ∧
      buildSets cs ≠ []) ∨
    ((apply_modification_atomic now store order_id cs).store = store ∧
      (apply_modification_atomic now store order_id cs).ok = false) := by
  cases hf : fetch_one store order_id with
  | none => right; simp [apply_modification_atomic, hf]
  | some o =>
    cases hc : o.confirmed_at with
    | none => right; simp [apply_modification_atomic, hf, hc]
    | some ts =>
      simp only [apply_modification_atomic, hf, hc, to_ts]
      by_cases hwin : now - ts > EDIT_WINDOW_SECONDS
      · right; simp [hwin]
      · by_cases hstate : o.state = "cancelled" ∨ o.state = "cooking" ∨ o.state = "done"
        · right; simp [hwin, hstate]
        · by_cases hemp : buildSets cs = []
          · right; simp [hwin, hstate, hemp]
          · left
            rw [if_neg hwin, if_neg hstate, if_neg hemp]
            refine ⟨?_, rfl, hemp⟩
            show store.map _ = store.map _
            apply List.map_congr_left
            intro r _
            unfold updatedRow
            split
            · exact applySets_buildSets r cs
            · rfl

theorem apply_fail_frame (now : ℚ) (store : List Order) (order_id : Int)
    (cs : Changes) (h : (apply_modification_atomic now store order_id cs).ok = false) :
    (apply_modification_atomic now store order_id cs).store = store := by
  rcases apply_cases now store order_id cs with ⟨_, hok, _⟩ | ⟨hs, _⟩
  · rw [h] at hok; cases hok
  · exact hs

theorem apply_ok_frame (now : ℚ) (store : List Order) (order_id : Int)
    (cs : Changes) (h : (apply_modification_atomic now store order_id cs).ok = true) :
    (apply_modification_atomic now store order_id cs).store =
      store.map (updatedRow order_id cs) := by
  rcases apply_cases now store order_id cs with ⟨hs, _, _⟩ | ⟨_, hok⟩
  · exact hs
  · rw [h] at hok; cases hok

/-- The exact failure characterization of the conditional update. -/
theorem apply_fail_iff (now : ℚ) (store : List Order) (order_id : Int) (cs : Changes) :
    (apply_modification_atomic now store order_id cs).ok = false ↔
      fetch_one store order_id = none ∨
      ∃ o, fetch_one store order_id = some o ∧
        (o.confirmed_at = none ∨
         (∃ ts, o.confirmed_at = some ts ∧ now - ts > EDIT_WINDOW_SECONDS) ∨
         o.state = "cancelled" ∨ o.state = "cooking" ∨ o.state = "done" ∨
         buildSets cs = []) := by
  constructor
  · intro h
    cases hf : fetch_one store order_id with
    | none => exact Or.inl rfl
    | some o =>
      refine Or.inr ⟨o, rfl, ?_⟩
      cases hc : o.confirmed_at with
      | none => exact Or.inl rfl
      | some ts =>
        refine Or.inr ?_
        simp only [apply_modification_atomic, hf, hc, to_ts] at h
        by_cases hwin : now - ts > EDIT_WINDOW_SECONDS
        · exact Or.inl ⟨ts, rfl, hwin⟩
        · rw [if_neg hwin] at h
          by_cases hstate : o.state = "cancelled" ∨ o.state = "cooking" ∨ o.state = "done"
          · right; tauto
          · rw [if_neg hstate] at h
            by_cases hemp : buildSets cs = []
            · exact Or.inr (Or.inr (Or.inr (Or.inr hemp)))
            · rw [if_neg hemp] at h
              simp at h
  · rintro (hf | ⟨o, hf, hcond⟩)
    · simp [apply_modification_atomic, hf]
    · have hbody : ∀ hs : o.state = "cancelled" ∨ o.state = "cooking" ∨ o.state = "done",
          (apply_modification_atomic now store order_id cs).ok = false := by
        intro hs
        cases hc : o.confirmed_at with
        | none => simp [apply_modification_atomic, hf, hc]
        | some ts =>
          simp only [apply_modification_atomic, hf, hc, to_ts]
          by_cases hwin : now - ts > EDIT_WINDOW_SECONDS
          · simp [hwin]
          · simp [hwin, if_pos hs]
      rcases hcond with hc | ⟨ts, hc, hwin⟩ | hs | hs | hs | hemp
      · simp [apply_modification_atomic, hf, hc]
      · simp [apply_modification_atomic, hf, hc, to_ts, hwin]
      · exact hbody (Or.inl hs)
      · exact hbody (Or.inr (Or.inl hs))
      · exact hbody (Or.inr (Or.inr hs))
      · cases hc : o.confirmed_at with
        | none => simp [apply_modification_atomic, hf, hc]
        | some ts =>
          simp only [apply_modification_atomic, hf, hc, to_ts]
          by_cases hwin : now - ts > EDIT_WINDOW_SECONDS
          · simp [hwin]
          · by_cases hstate : o.state = "cancelled" ∨ o.state = "cooking" ∨ o.state = "done"
            · simp [hwin, if_pos hstate]
            · simp [hwin, if_neg hstate, hemp]

/-! ### Concrete fixtures used by counterexamples and witnesses -/

/-! ### C1 -/

/-- C1, counterexample.  The claim says `apply_modification_atomic` returns
`False` (with no mutation) exactly when the order is missing, not in state
`confirmed`, lacks `confirmedAt`, is terminal, or the window elapsed.  At
time 10 the confirmed order `orderConfirmed` (confirmed at 0) satisfies none
of those failure conditions, yet the call with the empty change set returns
`False` — the source also rejects a change set with no mutable field — so
the claimed equivalence is false at this input.  (The claim's "not in state
confirmed" clause is likewise not what the code checks: only the three
terminal states are.) -/
theorem c1_counterexample :
    ¬ (((apply_modification_atomic 10 storeConfirmed 1 Changes.empty).ok = false) ↔
        (fetch_one storeConfirmed 1 = none ∨
         orderConfirmed.state ≠ "confirmed" ∨
         orderConfirmed.confirmed_at = none ∨
         (∃ ts, orderConfirmed.confirmed_at = some ts ∧
            (10 : ℚ) - ts > EDIT_WINDOW_SECONDS) ∨
         orderConfirmed.state = "cancelled" ∨ orderConfirmed.state = "cooking" ∨
         orderConfirmed.state = "done")) := by
  intro h
  have hfalse : (apply_modification_atomic 10 storeConfirmed 1 Changes.empty).ok = false := by
    norm_num [apply_modification_atomic, fetch_one, storeConfirmed, orderConfirmed,
      Changes.empty, buildSets, to_ts, List.find?, EDIT_WINDOW_SECONDS] <;> decide
  rcases h.mp hfalse with hf | hs | hc | ⟨ts, hts, hwin⟩ | h1 | h1 | h1
  · simp [fetch_one, storeConfirmed, orderConfirmed, List.find?] at hf
  · exact hs rfl
  · simp [orderConfirmed] at hc
  · simp only [orderConfirmed, Option.some.injEq] at hts
    rw [← hts] at hwin
    norm_num [EDIT_WINDOW_SECONDS] at hwin
  · simp [orderConfirmed] at h1
  · simp [orderConfirmed] at h1
  · simp [orderConfirmed] at h1

/-- C1 (amended): `apply_modification_atomic` returns `False` and performs no
mutation if and only if the order does not exist, has no `confirmedAt`, more
than `EDIT_WINDOW` (5 minutes) elapsed since `confirmedAt` at the time of the
call, the order is in a terminal state (`cancelled`, `cooking`, `done`), or
the change set contains no mutable field; in every other case it writes
exactly the fields present in the change set and returns `True`.  (The
source never compares the state against `confirmed`; a non-terminal state
with a set `confirmedAt` passes.) -/
theorem c1_conditional_update_characterization (now : ℚ) (store : List Order)
    (order_id : Int) (cs : Changes) :
    ((apply_modification_atomic now store order_id cs).ok = false ↔
      fetch_one store order_id = none ∨
      ∃ o, fetch_one store order_id = some o ∧
        (o.confirmed_at = none ∨
         (∃ ts, o.confirmed_at = some ts ∧ now - ts > EDIT_WINDOW_SECONDS) ∨
         o.state = "cancelled" ∨ o.state = "cooking" ∨ o.state = "done" ∨
         buildSets cs = [])) ∧
    ((apply_modification_atomic now store order_id cs).ok = true →
      (apply_modification_atomic now store order_id cs).store =
        store.map (updatedRow order_id cs)) ∧
    ((apply_modification_atomic now store order_id cs).ok = false →
      (apply_modification_atomic now store order_id cs).store = store) :=
  ⟨apply_fail_iff now store order_id cs,
   apply_ok_frame now store order_id cs,
   apply_fail_frame now store order_id cs⟩

/-- C1 witness: at time 10 a quantity-only change set on the confirmed order
succeeds and writes the new quantity. -/
theorem c1_conditional_update_characterization_witness :
    (apply_modification_atomic 10 storeConfirmed 1 csQty3).store =
      storeConfirmed.map (updatedRow 1 csQty3) :=
  (c1_conditional_update_characterization 10 storeConfirmed 1 csQty3).2.1 (by
    norm_num [apply_modification_atomic, fetch_one, storeConfirmed, orderConfirmed,
      csQty3, buildSets, to_ts, List.find?, EDIT_WINDOW_SECONDS] <;> decide)

/-! ### C3 -/

/-- C3: every call to `apply_modification_atomic` is all-or-none.  On a
`True` return the table is mapped row-wise: the target row takes exactly the
change-set fields that are present (`getD` keeps the prior value of each
absent field) while its `id`, `state`, `created_at` and `confirmed_at` are
untouched, and every other row is unchanged; on a `False` return the table
is exactly the input table. -/
theorem c3_apply_all_or_none (now : ℚ) (store : List Order) (order_id : Int)
    (cs : Changes) :
    ((apply_modification_atomic now store order_id cs).ok = true →
      (apply_modification_atomic now store order_id cs).store =
        store.map (fun o =>
          if o.id == order_id then
            { o with
              client_name := cs.client_name.getD o.client_name,
              product := cs.product.getD o.product,
              size := cs.size.getD o.size,
              qty := cs.qty.getD o.qty,
              payment_method := cs.payment_method.getD o.payment_method }
          else o)) ∧
    ((apply_modification_atomic now store order_id cs).ok = false →
      (apply_modification_atomic now store order_id cs).store = store) :=
  ⟨fun h => apply_ok_frame now store order_id cs h,
   fun h => apply_fail_frame now store order_id cs h⟩

/-- C3 witness: the success case writes only the quantity of the target row,
and a failing call (expired window) leaves the table unchanged. -/
theorem c3_apply_all_or_none_witness :
    (apply_modification_atomic 10 storeConfirmed 1 csQty3).store =
      [⟨1, "ana", "pepperoni", "personal", 3, "efectivo", "confirmed",
        "2025-01-01 12:00:00", some 0⟩] ∧
    (apply_modification_atomic 1000 storeConfirmed 1 csQty3).store = storeConfirmed := by
  constructor
  · rw [(c3_apply_all_or_none 10 storeConfirmed 1 csQty3).1 (by
      norm_num [apply_modification_atomic, fetch_one, storeConfirmed, orderConfirmed,
        csQty3, buildSets, to_ts, List.find?, EDIT_WINDOW_SECONDS] <;> decide)]
    norm_num [storeConfirmed, orderConfirmed, csQty3] <;> decide
  · exact (c3_apply_all_or_none 1000 storeConfirmed 1 csQty3).2 (by
      norm_num [apply_modification_atomic, fetch_one, storeConfirmed, orderConfirmed,
        csQty3, buildSets, to_ts, List.find?, EDIT_WINDOW_SECONDS] <;> decide)

/-! ### Helper lemmas about the retry loop and the worker -/

@[simp] theorem finishResult_code (clock : ℕ → ℚ) (m : Metrics) (t0 : ℚ)
    (code : String) (reason : Option String) (store : List Order)
    (sc : List SinkCall) (a f : ℕ) (sl : List ℚ) (ap : Bool) (k : ℕ) :
    (finishResult clock m t0 code reason store sc a f sl ap k).code = code := rfl

@[simp] theorem finishResult_store (clock : ℕ → ℚ) (m : Metrics) (t0 : ℚ)
    (code : String) (reason : Option String) (store : List Order)
    (sc : List SinkCall) (a f : ℕ) (sl : List ℚ) (ap : Bool) (k : ℕ) :
    (finishResult clock m t0 code reason store sc a f sl ap k).store = store := rfl

@[simp] theorem finishResult_metrics (clock : ℕ → ℚ) (m : Metrics) (t0 : ℚ)
    (code : String) (reason : Option String) (store : List Order)
    (sc : List SinkCall) (a f : ℕ) (sl : List ℚ) (ap : Bool) (k : ℕ) :
    (finishResult clock m t0 code reason store sc a f sl ap k).metrics =
      finishMetrics m code ((clock k - t0) * 1000) := rfl

@[simp] theorem finishResult_sinkCalls (clock : ℕ → ℚ) (m : Metrics) (t0 : ℚ)
    (code : String) (reason : Option String) (store : List Order)
    (sc : List SinkCall) (a f : ℕ) (sl : List ℚ) (ap : Bool) (k : ℕ) :
    (finishResult clock m t0 code reason store sc a f sl ap k).sinkCalls = sc := rfl

@[simp] theorem finishResult_applyCalls (clock : ℕ → ℚ) (m : Metrics) (t0 : ℚ)
    (code : String) (reason : Option String) (store : List Order)
    (sc : List SinkCall) (a f : ℕ) (sl : List ℚ) (ap : Bool) (k : ℕ) :
    (finishResult clock m t0 code reason store sc a f sl ap k).applyCalls = a := rfl

@[simp] theorem finishResult_fetchCalls (clock : ℕ → ℚ) (m : Metrics) (t0 : ℚ)
    (code : String) (reason : Option String) (store : List Order)
    (sc : List SinkCall) (a f : ℕ) (sl : List ℚ) (ap : Bool) (k : ℕ) :
    (finishResult clock m t0 code reason store sc a f sl ap k).fetchCalls = f := rfl

@[simp] theorem finishResult_sleeps (clock : ℕ → ℚ) (m : Metrics) (t0 : ℚ)
    (code : String) (reason : Option String) (store : List Order)
    (sc : List SinkCall) (a f : ℕ) (sl : List ℚ) (ap : Bool) (k : ℕ) :
    (finishResult clock m t0 code reason store sc a f sl ap k).sleeps = sl := rfl

@[simp] theorem finishResult_applied (clock : ℕ → ℚ) (m : Metrics) (t0 : ℚ)
    (code : String) (reason : Option String) (store : List Order)
    (sc : List SinkCall) (a f : ℕ) (sl : List ℚ) (ap : Bool) (k : ℕ) :
    (finishResult clock m t0 code reason store sc a f sl ap k).applied = ap := rfl

/-- A run that finds the row and a truthy `confirmed_at` reaches the window
check and reads the clock exactly once. -/
theorem apply_timeReads_one (now : ℚ) (store : List Order) (order_id : Int)
    (cs : Changes) (o : Order) (ts : ℚ)
    (hf : fetch_one store order_id = some o) (hc : o.confirmed_at = some ts) :
    (apply_modification_atomic now store order_id cs).timeReads = 1 := by
  simp only [apply_modification_atomic, hf, hc, to_ts]
  split
  · rfl
  · split
    · rfl
    · split
      · rfl
      · rfl

/-- A missing order: the attempt fails without reading the clock, and the
fresh read breaks the loop at once with `MOD_FAIL`. -/
theorem retryLoop_not_found (clock : ℕ → ℚ) (order_id : Int) (cs : Changes)
    (store : List Order) (hf : fetch_one store order_id = none)
    (n : ℕ) (backoff : ℚ) (code : String) (reason : Option String) (k : ℕ) :
    retryLoop clock order_id cs (n + 1) backoff code reason store k =
      ⟨false, "MOD_FAIL", some "not_found_or_unconfirmed", store, 1, 1, [], k⟩ := by
  have happly : apply_modification_atomic (clock k) store order_id cs =
      ⟨store, false, 0⟩ := by
    simp [apply_modification_atomic, hf]
  simp [retryLoop, happly, hf]

/-- An unconfirmed order: same immediate `MOD_FAIL` break. -/
theorem retryLoop_unconfirmed (clock : ℕ → ℚ) (order_id : Int) (cs : Changes)
    (store : List Order) (o : Order)
    (hf : fetch_one store order_id = some o) (hc : o.confirmed_at = none)
    (n : ℕ) (backoff : ℚ) (code : String) (reason : Option String) (k : ℕ) :
    retryLoop clock order_id cs (n + 1) backoff code reason store k =
      ⟨false, "MOD_FAIL", some "not_found_or_unconfirmed", store, 1, 1, [], k⟩ := by
  have happly : apply_modification_atomic (clock k) store order_id cs =
      ⟨store, false, 0⟩ := by
    simp [apply_modification_atomic, hf, hc]
  simp [retryLoop, happly, hf, hc]

/-- A confirmed order past the window at every clock read: the first attempt
fails and the fresh re-check breaks the loop at once with `TIME_EXPIRED`. -/
theorem retryLoop_expired (clock : ℕ → ℚ) (order_id : Int) (cs : Changes)
    (store : List Order) (o : Order) (ts : ℚ)
    (hf : fetch_one store order_id = some o) (hc : o.confirmed_at = some ts)
    (hexp : ∀ j, clock j - ts > EDIT_WINDOW_SECONDS)
    (n : ℕ) (backoff : ℚ) (code : String) (reason : Option String) (k : ℕ) :
    retryLoop clock order_id cs (n + 1) backoff code reason store k =
      ⟨false, "TIME_EXPIRED", some "edit_window_passed", store, 1, 1, [], k + 2⟩ := by
  have hok : (apply_modification_atomic (clock k) store order_id cs).ok = false :=
    (apply_fail_iff (clock k) store order_id cs).mpr
      (Or.inr ⟨o, hf, Or.inr (Or.inl ⟨ts, hc, hexp k⟩)⟩)
  have hfr : (apply_modification_atomic (clock k) store order_id cs).store = store :=
    apply_fail_frame _ _ _ _ hok
  have htr : (apply_modification_atomic (clock k) store order_id cs).timeReads = 1 :=
    apply_timeReads_one _ _ _ _ o ts hf hc
  simp [retryLoop, hok, htr, hf, hc, to_ts, hexp (k + 1)]

/-- A persistently failing attempt on a confirmed, in-window order (the
terminal-state case): the loop treats every failure as contention, sleeps
the doubling backoff after each attempt, and exhausts its `n` attempts,
returning the `code`/`reason` it entered with. -/
theorem retryLoop_contention (clock : ℕ → ℚ) (order_id : Int) (cs : Changes)
    (store : List Order) (o : Order) (ts : ℚ)
    (hf : fetch_one store order_id = some o) (hc : o.confirmed_at = some ts)
    (hfail : ∀ now, (apply_modification_atomic now store order_id cs).ok = false)
    (hwin : ∀ j, ¬ clock j - ts > EDIT_WINDOW_SECONDS) :
    ∀ (n : ℕ) (backoff : ℚ) (code : String) (reason : Option String) (k : ℕ),
      retryLoop clock order_id cs n backoff code reason store k =
        ⟨false, code, reason, store, n, n, backoffSeq n backoff, k + 2 * n⟩ := by
  intro n
  induction n with
  | zero =>
    intro backoff code reason k
    simp [retryLoop, backoffSeq]
  | succ m ih =>
    intro backoff code reason k
    have htr : (apply_modification_atomic (clock k) store order_id cs).timeReads = 1 :=
      apply_timeReads_one _ _ _ _ o ts hf hc
    simp only [retryLoop, hfail (clock k), htr, hf, hc, to_ts, Bool.false_eq_true,
      if_false]
    rw [if_neg (hwin (k + 1))]
    rw [ih (backoff * 2) code reason (k + 1 + 1)]
    simp [backoffSeq]
    omega

/-! ### C2 -/

/-- C2: a mutation request on a confirmed order whose present fields pass the
local validation, processed while every clock read is more than
`EDIT_WINDOW` past `confirmedAt`, finishes with `TIME_EXPIRED` (hence never
`MOD_OK`) on its very first attempt, and the table is unchanged. -/
theorem c2_expired_never_mod_ok (clock : ℕ → ℚ) (kF cF : Bool)
    (store : List Order) (m : Metrics) (ev : ModEvent) (k : ℕ) (o : Order) (ts : ℚ)
    (hf : fetch_one store ev.order_id = some o)
    (hc : o.confirmed_at = some ts)
    (hvalid : validationError (buildChanges ev) = none)
    (hexp : ∀ j, clock j - ts > EDIT_WINDOW_SECONDS) :
    (processEvent clock kF cF store m ev k).code = "TIME_EXPIRED" ∧
    (processEvent clock kF cF store m ev k).code ≠ "MOD_OK" ∧
    (processEvent clock kF cF store m ev k).store = store := by
  have hloop := retryLoop_expired clock ev.order_id (buildChanges ev) store o ts hf hc
    hexp 2 INITIAL_BACKOFF_S "MOD_FAIL" none (k + 1)
  have h3 : MAX_RETRIES = 2 + 1 := rfl
  simp only [processEvent, hvalid, h3, hloop]
  norm_num
  decide

/-- C2 witness: the quantity request on the order confirmed at time 0,
processed at time 1000, times out and leaves the table unchanged. -/
theorem c2_expired_never_mod_ok_witness :
    (processEvent (fun _ => 1000) false false storeConfirmed metricsInit evQty3 0).code =
      "TIME_EXPIRED" ∧
    (processEvent (fun _ => 1000) false false storeConfirmed metricsInit evQty3 0).store =
      storeConfirmed := by
  have h := c2_expired_never_mod_ok (fun _ => 1000) false false storeConfirmed
    metricsInit evQty3 0 orderConfirmed 0 rfl rfl rfl
    (fun j => by norm_num [EDIT_WINDOW_SECONDS])
  exact ⟨h.1, h.2.2⟩

/-! ### C4 -/

/-- C4, counterexample.  The claim says every definitive rejection — the
terminal-state case included — exits the retry loop immediately, with no
sleep and no re-attempt.  But the loop's fresh re-read only distinguishes
not-found/unconfirmed and window-expiry; a `cooking` order that is confirmed
and inside the window is treated as contention: the loop makes all 3
attempts and sleeps the full backoff ladder before `MOD_FAIL`. -/
theorem c4_counterexample :
    orderCooking.state = "cooking" ∧
    (retryLoop (fun _ => 10) 2 csQty3 MAX_RETRIES INITIAL_BACKOFF_S "MOD_FAIL" none
        storeCooking 0).applyCalls = 3 ∧
    (retryLoop (fun _ => 10) 2 csQty3 MAX_RETRIES INITIAL_BACKOFF_S "MOD_FAIL" none
        storeCooking 0).sleeps = [1/4, 1/2, 1] ∧
    ¬ ((retryLoop (fun _ => 10) 2 csQty3 MAX_RETRIES INITIAL_BACKOFF_S "MOD_FAIL" none
          storeCooking 0).applyCalls = 1 ∧
       (retryLoop (fun _ => 10) 2 csQty3 MAX_RETRIES INITIAL_BACKOFF_S "MOD_FAIL" none
          storeCooking 0).sleeps = []) := by
  have hfail : ∀ now, (apply_modification_atomic now storeCooking 2 csQty3).ok = false :=
    fun now => (apply_fail_iff now storeCooking 2 csQty3).mpr
      (Or.inr ⟨orderCooking, rfl, Or.inr (Or.inr (Or.inr (Or.inl rfl)))⟩)
  have h := retryLoop_contention (fun _ => 10) 2 csQty3 storeCooking orderCooking 0
    rfl rfl hfail (fun j => by norm_num [EDIT_WINDOW_SECONDS]) 3 INITIAL_BACKOFF_S
    "MOD_FAIL" none 0
  have h3 : MAX_RETRIES = 3 := rfl
  rw [h3, h]
  refine ⟨rfl, rfl, by norm_num [backoffSeq, INITIAL_BACKOFF_S], ?_⟩
  rintro ⟨h1, -⟩
  simp at h1

/-- C4 (amended): when the conditional update fails, the loop's fresh re-read
classifies only three definitive rejections — order not found, unconfirmed,
or edit window expired — and exits immediately for those (one attempt, no
sleep), with `MOD_FAIL`/`MOD_FAIL`/`TIME_EXPIRED` respectively; a failure
with the order confirmed and inside the window — the terminal-state
rejection in particular — is treated as contention and re-attempted with
doubling backoff until the `MAX_RETRIES` attempts are exhausted, after which
the loop returns unapplied (yielding `MOD_FAIL`). -/
theorem c4_rejection_retry_policy (clock : ℕ → ℚ) (order_id : Int) (cs : Changes)
    (store : List Order) (code0 : String) (reason0 : Option String) (k : ℕ) :
    (fetch_one store order_id = none →
      retryLoop clock order_id cs MAX_RETRIES INITIAL_BACKOFF_S code0 reason0 store k =
        ⟨false, "MOD_FAIL", some "not_found_or_unconfirmed", store, 1, 1, [], k⟩) ∧
    (∀ o, fetch_one store order_id = some o → o.confirmed_at = none →
      retryLoop clock order_id cs MAX_RETRIES INITIAL_BACKOFF_S code0 reason0 store k =
        ⟨false, "MOD_FAIL", some "not_found_or_unconfirmed", store, 1, 1, [], k⟩) ∧
    (∀ o ts, fetch_one store order_id = some o → o.confirmed_at = some ts →
      (∀ j, clock j - ts > EDIT_WINDOW_SECONDS) →
      retryLoop clock order_id cs MAX_RETRIES INITIAL_BACKOFF_S code0 reason0 store k =
        ⟨false, "TIME_EXPIRED", some "edit_window_passed", store, 1, 1, [], k + 2⟩) ∧
    (∀ o ts, fetch_one store order_id = some o → o.confirmed_at = some ts →
      (o.state = "cancelled" ∨ o.state = "cooking" ∨ o.state = "done") →
      (∀ j, ¬ clock j - ts > EDIT_WINDOW_SECONDS) →
      retryLoop clock order_id cs MAX_RETRIES INITIAL_BACKOFF_S code0 reason0 store k =
        ⟨false, code0, reason0, store, 3, 3, [1/4, 1/2, 1], k + 6⟩) := by
  refine ⟨fun hf => retryLoop_not_found clock order_id cs store hf 2 _ _ _ k,
    fun o hf hc => retryLoop_unconfirmed clock order_id cs store o hf hc 2 _ _ _ k,
    fun o ts hf hc hexp => retryLoop_expired clock order_id cs store o ts hf hc hexp
      2 _ _ _ k,
    fun o ts hf hc hterm hwin => ?_⟩
  have hfail : ∀ now, (apply_modification_atomic now store order_id cs).ok = false := by
    intro now
    refine (apply_fail_iff now store order_id cs).mpr (Or.inr ⟨o, hf, ?_⟩)
    rcases hterm with h | h | h
    · exact Or.inr (Or.inr (Or.inl h))
    · exact Or.inr (Or.inr (Or.inr (Or.inl h)))
    · exact Or.inr (Or.inr (Or.inr (Or.inr (Or.inl h))))
  have h3 : MAX_RETRIES = 3 := rfl
  rw [h3, retryLoop_contention clock order_id cs store o ts hf hc hfail hwin 3
    INITIAL_BACKOFF_S code0 reason0 k]
  norm_num [backoffSeq, INITIAL_BACKOFF_S]

/-- C4 witness: the three immediate-exit cases and the retried terminal-state
case, each at a concrete input. -/
theorem c4_rejection_retry_policy_witness :
    retryLoop (fun _ => 1000) 1 csQty3 MAX_RETRIES INITIAL_BACKOFF_S "MOD_FAIL" none [] 0 =
      ⟨false, "MOD_FAIL", some "not_found_or_unconfirmed", [], 1, 1, [], 0⟩ ∧
    retryLoop (fun _ => 1000) 3 csQty3 MAX_RETRIES INITIAL_BACKOFF_S "MOD_FAIL" none
        storeDraft 0 =
      ⟨false, "MOD_FAIL", some "not_found_or_unconfirmed", storeDraft, 1, 1, [], 0⟩ ∧
    retryLoop (fun _ => 1000) 1 csQty3 MAX_RETRIES INITIAL_BACKOFF_S "MOD_FAIL" none
        storeConfirmed 0 =
      ⟨false, "TIME_EXPIRED", some "edit_window_passed", storeConfirmed, 1, 1, [], 2⟩ ∧
    retryLoop (fun _ => 10) 2 csQty3 MAX_RETRIES INITIAL_BACKOFF_S "MOD_FAIL" none
        storeCooking 0 =
      ⟨false, "MOD_FAIL", none, storeCooking, 3, 3, [1/4, 1/2, 1], 6⟩ :=
  ⟨(c4_rejection_retry_policy (fun _ => 1000) 1 csQty3 [] "MOD_FAIL" none 0).1 rfl,
   (c4_rejection_retry_policy (fun _ => 1000) 3 csQty3 storeDraft "MOD_FAIL" none 0).2.1
     orderDraft rfl rfl,
   (c4_rejection_retry_policy (fun _ => 1000) 1 csQty3 storeConfirmed "MOD_FAIL" none 0).2.2.1
     orderConfirmed 0 rfl rfl (fun j => by norm_num [EDIT_WINDOW_SECONDS]),
   (c4_rejection_retry_policy (fun _ => 10) 2 csQty3 storeCooking "MOD_FAIL" none 0).2.2.2
     orderCooking 0 rfl rfl (Or.inr (Or.inl rfl))
     (fun j => by norm_num [EDIT_WINDOW_SECONDS])⟩

/-! ### C6 -/

/-- C6 (code bug): `_finish` increments `processed` before `_update_latency`
reads it, so the recurrence runs with `n` = the count including the current
request.  For the very first processed request with latency 100 ms the
reported average is `(0*1 + 100)/(1+1) = 50`, not the arithmetic mean 100:
the code divides the latency sum by `processed + 1`. -/
theorem c6_avg_latency_off_by_one :
    (finishMetrics metricsInit "MOD_OK" 100).processed = 1 ∧
    (finishMetrics metricsInit "MOD_OK" 100).avg_latency_ms = 50 ∧
    (50 : ℚ) ≠ 100 := by
  refine ⟨rfl, ?_, by norm_num⟩
  norm_num [finishMetrics, update_latency, metricsInit]

/-! ### C7 -/

/-- A successful first attempt: the loop stops at once with the updated
table. -/
theorem retryLoop_success (clock : ℕ → ℚ) (order_id : Int) (cs : Changes)
    (store : List Order)
    (n : ℕ) (backoff : ℚ) (code : String) (reason : Option String) (k : ℕ)
    (hok : (apply_modification_atomic (clock k) store order_id cs).ok = true) :
    retryLoop clock order_id cs (n + 1) backoff code reason store k =
      ⟨true, code, reason, (apply_modification_atomic (clock k) store order_id cs).store,
        1, 0, [], k + (apply_modification_atomic (clock k) store order_id cs).timeReads⟩ := by
  simp [retryLoop, hok]

/-- C7: whenever the retry loop reports an applied update, the worker invokes
the kitchen sink and then the client sink, in that order, with the order id
and the applied change set — both invocations happen regardless of whether
either raises — the outcome is `SYNC_FAIL` exactly when at least one sink
raised and `MOD_OK` otherwise, and the table keeps the persisted update
either way (no rollback). -/
theorem c7_fanout_after_success (clock : ℕ → ℚ) (kF cF : Bool)
    (store : List Order) (m : Metrics) (ev : ModEvent) (k : ℕ)
    (hvalid : validationError (buildChanges ev) = none)
    (happ : (retryLoop clock ev.order_id (buildChanges ev) MAX_RETRIES
      INITIAL_BACKOFF_S "MOD_FAIL" none store (k + 1)).applied = true) :
    (processEvent clock kF cF store m ev k).sinkCalls =
      [SinkCall.kitchen ev.order_id (buildChanges ev),
       SinkCall.client ev.order_id (buildChanges ev)] ∧
    (processEvent clock kF cF store m ev k).code =
      (if kF || cF then "SYNC_FAIL" else "MOD_OK") ∧
    (processEvent clock kF cF store m ev k).store =
      (retryLoop clock ev.order_id (buildChanges ev) MAX_RETRIES
        INITIAL_BACKOFF_S "MOD_FAIL" none store (k + 1)).store := by
  refine ⟨?_, ?_, ?_⟩
  · simp [processEvent, hvalid, happ]
  · cases kF <;> cases cF <;> simp [processEvent, hvalid, happ]
  · simp [processEvent, hvalid, happ]

/-- C7 witness: a successful quantity update on the confirmed order with a
raising kitchen sink still invokes both sinks in order and finishes
`SYNC_FAIL`, with the update persisted. -/
theorem c7_fanout_after_success_witness :
    (processEvent (fun _ => 10) true false storeConfirmed metricsInit evQty3 0).sinkCalls =
      [SinkCall.kitchen 1 csQty3, SinkCall.client 1 csQty3] ∧
    (processEvent (fun _ => 10) true false storeConfirmed metricsInit evQty3 0).code =
      "SYNC_FAIL" ∧
    (processEvent (fun _ => 10) true false storeConfirmed metricsInit evQty3 0).store =
      (retryLoop (fun _ => 10) 1 csQty3 MAX_RETRIES INITIAL_BACKOFF_S "MOD_FAIL" none
        storeConfirmed 1).store := by
  have hok : (apply_modification_atomic 10 storeConfirmed 1 csQty3).ok = true := by
    norm_num [apply_modification_atomic, fetch_one, storeConfirmed, orderConfirmed,
      csQty3, buildSets, to_ts, List.find?, EDIT_WINDOW_SECONDS] <;> decide
  have happ : (retryLoop (fun _ => 10) 1 (buildChanges evQty3) MAX_RETRIES
      INITIAL_BACKOFF_S "MOD_FAIL" none storeConfirmed 1).applied = true := by
    rw [show buildChanges evQty3 = csQty3 from rfl,
      show MAX_RETRIES = 2 + 1 from rfl,
      retryLoop_success (fun _ => 10) 1 csQty3 storeConfirmed 2 INITIAL_BACKOFF_S
        "MOD_FAIL" none 1 hok]
  exact c7_fanout_after_success (fun _ => 10) true false storeConfirmed metricsInit
    evQty3 0 rfl happ

/-! ### C8 -/

/-- A change set the local validation passes has every present
product/size/payment field inside its closed set. -/
theorem validationError_none_valid (cs : Changes)
    (h : validationError cs = none) :
    (∀ p, cs.product = some p → p ∈ valid_products) ∧
    (∀ s, cs.size = some s → s ∈ valid_sizes) ∧
    (∀ pm, cs.payment_method = some pm → pm ∈ valid_pay) := by
  rcases cs with ⟨c, p, s, q, pm⟩
  rcases p with _ | p <;> rcases s with _ | s <;> rcases pm with _ | pm <;>
    simp only [validationError] at h <;>
    (try split_ifs at h) <;> simp_all

/-- C8: a request whose built change set carries a product, size, or payment
method outside its closed valid set finishes `MOD_FAIL` with no store access
at all — the conditional update is never attempted, the order is never read,
the table is unchanged and no sink is invoked. -/
theorem c8_invalid_field_no_store_access (clock : ℕ → ℚ) (kF cF : Bool)
    (store : List Order) (m : Metrics) (ev : ModEvent) (k : ℕ)
    (hbad : (∃ p, (buildChanges ev).product = some p ∧ p ∉ valid_products) ∨
            (∃ s, (buildChanges ev).size = some s ∧ s ∉ valid_sizes) ∨
            (∃ pm, (buildChanges ev).payment_method = some pm ∧ pm ∉ valid_pay)) :
    (processEvent clock kF cF store m ev k).code = "MOD_FAIL" ∧
    (processEvent clock kF cF store m ev k).applyCalls = 0 ∧
    (processEvent clock kF cF store m ev k).fetchCalls = 0 ∧
    (processEvent clock kF cF store m ev k).store = store ∧
    (processEvent clock kF cF store m ev k).sinkCalls = [] := by
  have hv : validationError (buildChanges ev) ≠ none := by
    intro hn
    have h3 := validationError_none_valid _ hn
    rcases hbad with ⟨p, hp, hpn⟩ | ⟨s, hs, hsn⟩ | ⟨pm, hpm, hpmn⟩
    · exact hpn (h3.1 p hp)
    · exact hsn (h3.2.1 s hs)
    · exact hpmn (h3.2.2 pm hpm)
  rcases Option.ne_none_iff_exists'.mp hv with ⟨r, hr⟩
  refine ⟨?_, ?_, ?_, ?_, ?_⟩ <;> simp [processEvent, hr]

/-- C8 witness: `product="vegetarian"` is rejected locally, with zero store
reads and writes. -/
theorem c8_invalid_field_no_store_access_witness :
    (processEvent (fun _ => 0) false false storeConfirmed metricsInit evVeggie 0).code =
      "MOD_FAIL" ∧
    (processEvent (fun _ => 0) false false storeConfirmed metricsInit evVeggie 0).applyCalls =
      0 ∧
    (processEvent (fun _ => 0) false false storeConfirmed metricsInit evVeggie 0).fetchCalls =
      0 ∧
    (processEvent (fun _ => 0) false false storeConfirmed metricsInit evVeggie 0).store =
      storeConfirmed := by
  have h := c8_invalid_field_no_store_access (fun _ => 0) false false storeConfirmed
    metricsInit evVeggie 0 (Or.inl ⟨"vegetarian", by decide, by decide⟩)
  exact ⟨h.1, h.2.1, h.2.2.1, h.2.2.2.1⟩

/-! ### C9 and C10: outcome totality and the metrics invariant -/

@[simp] theorem finishMetrics_processed (m : Metrics) (c : String) (lat : ℚ) :
    (finishMetrics m c lat).processed = m.processed + 1 := rfl

theorem finishMetrics_counts_self (m : Metrics) (c : String) (lat : ℚ) :
    (finishMetrics m c lat).counts c = m.counts c + 1 := by
  simp [finishMetrics, update_latency]

theorem finishMetrics_counts_other (m : Metrics) (c s : String) (lat : ℚ)
    (h : s ≠ c) : (finishMetrics m c lat).counts s = m.counts s := by
  simp [finishMetrics, update_latency, h]

/-- The worker finalizes each event with one of the four outcome codes. -/
theorem processEvent_code_cases (clock : ℕ → ℚ) (kF cF : Bool)
    (store : List Order) (m : Metrics) (ev : ModEvent) (k : ℕ) :
    (processEvent clock kF cF store m ev k).code = "MOD_OK" ∨
    (processEvent clock kF cF store m ev k).code = "TIME_EXPIRED" ∨
    (processEvent clock kF cF store m ev k).code = "SYNC_FAIL" ∨
    (processEvent clock kF cF store m ev k).code = "MOD_FAIL" := by
  cases hv : validationError (buildChanges ev) with
  | some r => simp [processEvent, hv]
  | none =>
    by_cases happ : (retryLoop clock ev.order_id (buildChanges ev) MAX_RETRIES
        INITIAL_BACKOFF_S "MOD_FAIL" none store (k + 1)).applied = true
    · cases kF <;> cases cF <;> simp [processEvent, hv, happ]
    · by_cases hL : (retryLoop clock ev.order_id (buildChanges ev) MAX_RETRIES
          INITIAL_BACKOFF_S "MOD_FAIL" none store (k + 1)).code = "TIME_EXPIRED"
      · simp [processEvent, hv, happ, hL]
      · simp [processEvent, hv, happ, hL]

/-- Whatever path was taken, the metrics are those of exactly one `_finish`
call with the result's own code. -/
theorem processEvent_metrics_eq (clock : ℕ → ℚ) (kF cF : Bool)
    (store : List Order) (m : Metrics) (ev : ModEvent) (k : ℕ) :
    ∃ lat, (processEvent clock kF cF store m ev k).metrics =
      finishMetrics m (processEvent clock kF cF store m ev k).code lat := by
  cases hv : validationError (buildChanges ev) with
  | some r =>
    refine ⟨(clock (k + 1) - clock k) * 1000, ?_⟩
    simp [processEvent, hv]
  | none =>
    by_cases happ : (retryLoop clock ev.order_id (buildChanges ev) MAX_RETRIES
        INITIAL_BACKOFF_S "MOD_FAIL" none store (k + 1)).applied = true
    · refine ⟨(clock (retryLoop clock ev.order_id (buildChanges ev) MAX_RETRIES
        INITIAL_BACKOFF_S "MOD_FAIL" none store (k + 1)).k - clock k) * 1000, ?_⟩
      simp [processEvent, hv, happ]
    · refine ⟨(clock (retryLoop clock ev.order_id (buildChanges ev) MAX_RETRIES
        INITIAL_BACKOFF_S "MOD_FAIL" none store (k + 1)).k - clock k) * 1000, ?_⟩
      simp [processEvent, hv, happ]

/-- `workerStep` only returns `some` for non-sentinel events, and then it is
the processed event. -/
theorem workerStep_some_eq (clock : ℕ → ℚ) (kF cF : Bool) (store : List Order)
    (m : Metrics) (ev : ModEvent) (k : ℕ) (r : WorkerResult)
    (h : workerStep clock kF cF store m ev k = some r) :
    r = processEvent clock kF cF store m ev k := by
  unfold workerStep at h
  split at h
  · cases h
  · exact (Option.some_inj.mp h).symm

/-- C9: every non-sentinel event popped by the worker is finalized: the step
yields exactly one result, its outcome code is one of `MOD_OK`,
`TIME_EXPIRED`, `SYNC_FAIL`, `MOD_FAIL`, and that single outcome is recorded
in the metrics — `processed` and the counter of that code each grow by one
(nothing is dropped, and the total worker step is the model's expression of
"no failure escapes the loop": sink raises are absorbed into the outcome). -/
theorem c9_exactly_one_terminal_outcome (clock : ℕ → ℚ) (kF cF : Bool)
    (store : List Order) (m : Metrics) (ev : ModEvent) (k : ℕ)
    (hs : ev.order_id ≠ -1) :
    workerStep clock kF cF store m ev k =
      some (processEvent clock kF cF store m ev k) ∧
    ((processEvent clock kF cF store m ev k).code = "MOD_OK" ∨
     (processEvent clock kF cF store m ev k).code = "TIME_EXPIRED" ∨
     (processEvent clock kF cF store m ev k).code = "SYNC_FAIL" ∨
     (processEvent clock kF cF store m ev k).code = "MOD_FAIL") ∧
    (processEvent clock kF cF store m ev k).metrics.processed = m.processed + 1 ∧
    (processEvent clock kF cF store m ev k).metrics.counts
        (processEvent clock kF cF store m ev k).code =
      m.counts (processEvent clock kF cF store m ev k).code + 1 := by
  obtain ⟨lat, hm⟩ := processEvent_metrics_eq clock kF cF store m ev k
  refine ⟨by simp [workerStep, hs], processEvent_code_cases clock kF cF store m ev k,
    ?_, ?_⟩
  · rw [hm]; exact finishMetrics_processed m _ lat
  · rw [hm]; exact finishMetrics_counts_self m _ lat

/-- C9 witness: a concrete popped request is finalized with its single
outcome recorded. -/
theorem c9_exactly_one_terminal_outcome_witness :
    workerStep (fun _ => 1000) false false storeConfirmed metricsInit evQty3 0 =
      some (processEvent (fun _ => 1000) false false storeConfirmed metricsInit evQty3 0) ∧
    (processEvent (fun _ => 1000) false false storeConfirmed metricsInit evQty3 0).metrics.processed = 1 := by
  have h := c9_exactly_one_terminal_outcome (fun _ => 1000) false false storeConfirmed
    metricsInit evQty3 0 (by decide)
  exact ⟨h.1, h.2.2.1⟩

theorem finishMetrics_inv (m : Metrics) (c : String) (lat : ℚ)
    (hm : MetricsInv m)
    (hc : c = "MOD_OK" ∨ c = "TIME_EXPIRED" ∨ c = "SYNC_FAIL" ∨ c = "MOD_FAIL") :
    MetricsInv (finishMetrics m c lat) := by
  rcases hc with rfl | rfl | rfl | rfl <;>
    · unfold MetricsInv at hm ⊢
      simp [finishMetrics, update_latency]
      omega

theorem processEvent_inv (clock : ℕ → ℚ) (kF cF : Bool) (store : List Order)
    (m : Metrics) (ev : ModEvent) (k : ℕ) (hm : MetricsInv m) :
    MetricsInv (processEvent clock kF cF store m ev k).metrics := by
  obtain ⟨lat, hmet⟩ := processEvent_metrics_eq clock kF cF store m ev k
  rw [hmet]
  exact finishMetrics_inv m _ lat hm (processEvent_code_cases clock kF cF store m ev k)

theorem runWorker_inv (clock : ℕ → ℚ) :
    ∀ (events : List (ModEvent × Bool × Bool)) (store : List Order) (m : Metrics)
      (k : ℕ), MetricsInv m → MetricsInv (runWorker clock events store m k).2.1 := by
  intro events
  induction events with
  | nil => intro store m k hm; exact hm
  | cons e rest ih =>
    intro store m k hm
    rcases e with ⟨ev, kFlag, cFlag⟩
    simp only [runWorker]
    cases hw : workerStep clock kFlag cFlag store m ev k with
    | none => exact hm
    | some r =>
      have hr := workerStep_some_eq clock kFlag cFlag store m ev k r hw
      subst hr
      exact ih _ _ _ (processEvent_inv clock kFlag cFlag store m ev k hm)

/-- C10: each finalization increments `processed` and exactly one of the four
outcome counters by exactly one, so `processed = MOD_OK + TIME_EXPIRED +
SYNC_FAIL + MOD_FAIL` is preserved by every worker step and holds after any
run of the worker loop started from the initial metrics. -/
theorem c10_processed_equals_outcome_sum :
    (∀ (clock : ℕ → ℚ) (kF cF : Bool) (store : List Order) (m : Metrics)
        (ev : ModEvent) (k : ℕ) (r : WorkerResult),
      MetricsInv m → workerStep clock kF cF store m ev k = some r →
      MetricsInv r.metrics ∧
      r.metrics.processed = m.processed + 1 ∧
      r.metrics.counts r.code = m.counts r.code + 1 ∧
      (∀ c, c ≠ r.code → r.metrics.counts c = m.counts c)) ∧
    (∀ (clock : ℕ → ℚ) (events : List (ModEvent × Bool × Bool))
        (store : List Order) (k : ℕ),
      MetricsInv (runWorker clock events store metricsInit k).2.1) := by
  constructor
  · intro clock kF cF store m ev k r hm hw
    have hr := workerStep_some_eq clock kF cF store m ev k r hw
    subst hr
    obtain ⟨lat, hmet⟩ := processEvent_metrics_eq clock kF cF store m ev k
    refine ⟨processEvent_inv clock kF cF store m ev k hm, ?_, ?_, ?_⟩
    · rw [hmet]; exact finishMetrics_processed m _ lat
    · rw [hmet]; exact finishMetrics_counts_self m _ lat
    · intro c hc
      rw [hmet]; exact finishMetrics_counts_other m _ c lat hc
  · intro clock events store k
    exact runWorker_inv clock events store metricsInit k rfl

/-- C10 witness: the invariant after a concrete one-event run, and one
concrete step's bookkeeping. -/
theorem c10_processed_equals_outcome_sum_witness :
    MetricsInv (runWorker (fun _ => 1000) [(evQty3, false, false)] storeConfirmed
      metricsInit 0).2.1 ∧
    (processEvent (fun _ => 1000) false false storeConfirmed metricsInit evQty3 0).metrics.processed = 1 := by
  refine ⟨(c10_processed_equals_outcome_sum).2 (fun _ => 1000) [(evQty3, false, false)]
    storeConfirmed 0, ?_⟩
  have h := (c10_processed_equals_outcome_sum).1 (fun _ => 1000) false false
    storeConfirmed metricsInit evQty3 0
    (processEvent (fun _ => 1000) false false storeConfirmed metricsInit evQty3 0)
    rfl (by simp [workerStep]; decide)
  exact h.2.1

/-! ### C5: queue ordering -/

theorem keyLe_refl (a : ℕ × Int) : keyLe a a := Or.inr ⟨rfl, le_refl _⟩

theorem keyLe_trans {a b c : ℕ × Int} (h1 : keyLe a b) (h2 : keyLe b c) :
    keyLe a c := by
  unfold keyLe at h1 h2 ⊢
  omega

theorem keyLt_of_not_keyLe {a b : ℕ × Int} (h : ¬ keyLe a b) : keyLt b a := by
  unfold keyLe at h
  unfold keyLt
  omega

theorem pyCmpPair_eq_lt (a b : ℕ × Int) : pyCmpPair a b = .lt ↔ keyLt a b := by
  unfold pyCmpPair pyCmpNat pyCmpInt keyLt
  by_cases h1 : a.1 < b.1
  · simp [h1]
  · by_cases h2 : a.1 = b.1
    · by_cases h3 : a.2 < b.2 <;> by_cases h4 : a.2 = b.2 <;>
        simp [h1, h2, h3, h4] <;> omega
    · simp [h1, h2]
      try omega

theorem pyCmpPair_eq_gt (a b : ℕ × Int) : pyCmpPair a b = .gt ↔ keyLt b a := by
  unfold pyCmpPair pyCmpNat pyCmpInt keyLt
  by_cases h1 : a.1 < b.1
  · simp [h1]
    omega
  · by_cases h2 : a.1 = b.1
    · by_cases h3 : a.2 < b.2 <;> by_cases h4 : a.2 = b.2 <;>
        simp [h1, h2, h3, h4] <;> omega
    · simp [h1, h2]
      try omega

/-! #### Algebra of the dataclass comparison

The component comparators are eq-reflective (an `eq` result means the values
are equal), strict-transitive, and mirror under argument swap; these facts
lift through the `lexE` chain to `pyCmp`, giving reflexivity, asymmetry and
transitivity of the full dataclass `<` wherever it is defined.  They let the
queue theorems speak about the complete comparison, not only its leading
`sort_index` component. -/

theorem pyCmpNat_lt_iff (x y : ℕ) : pyCmpNat x y = .lt ↔ x < y := by
  unfold pyCmpNat
  split_ifs with h1 h2
  · simp [h1]
  · simp [h1]
  · simp [h1]

theorem pyCmpNat_gt_iff (x y : ℕ) : pyCmpNat x y = .gt ↔ y < x := by
  unfold pyCmpNat
  split_ifs with h1 h2
  · exact iff_of_false (by simp) (by omega)
  · exact iff_of_false (by simp) (by omega)
  · exact iff_of_true rfl (by omega)

theorem pyCmpNat_eq_val {x y : ℕ} (h : pyCmpNat x y = .eq) : x = y := by
  unfold pyCmpNat at h
  split_ifs at h with h1 h2
  exact h2

theorem pyCmpNat_refl (x : ℕ) : pyCmpNat x x = .eq := by
  simp [pyCmpNat, lt_irrefl]

theorem pyCmpNat_lt_trans {x y z : ℕ} (h1 : pyCmpNat x y = .lt)
    (h2 : pyCmpNat y z = .lt) : pyCmpNat x z = .lt :=
  (pyCmpNat_lt_iff x z).mpr
    (lt_trans ((pyCmpNat_lt_iff x y).mp h1) ((pyCmpNat_lt_iff y z).mp h2))

theorem pyCmpNat_swap (x y : ℕ) : pyCmpNat y x = (pyCmpNat x y).swap := by
  rcases lt_trichotomy x y with h | h | h
  · rw [(pyCmpNat_lt_iff x y).mpr h, (pyCmpNat_gt_iff y x).mpr h]; rfl
  · subst h; rw [pyCmpNat_refl]; rfl
  · rw [(pyCmpNat_gt_iff x y).mpr h, (pyCmpNat_lt_iff y x).mpr h]; rfl

theorem pyCmpInt_lt_iff (x y : Int) : pyCmpInt x y = .lt ↔ x < y := by
  unfold pyCmpInt
  split_ifs with h1 h2
  · simp [h1]
  · simp [h1]
  · simp [h1]

theorem pyCmpInt_gt_iff (x y : Int) : pyCmpInt x y = .gt ↔ y < x := by
  unfold pyCmpInt
  split_ifs with h1 h2
  · exact iff_of_false (by simp) (by omega)
  · exact iff_of_false (by simp) (by omega)
  · exact iff_of_true rfl (by omega)

theorem pyCmpInt_eq_val {x y : Int} (h : pyCmpInt x y = .eq) : x = y := by
  unfold pyCmpInt at h
  split_ifs at h with h1 h2
  exact h2

theorem pyCmpInt_refl (x : Int) : pyCmpInt x x = .eq := by
  simp [pyCmpInt, lt_irrefl]

theorem pyCmpInt_lt_trans {x y z : Int} (h1 : pyCmpInt x y = .lt)
    (h2 : pyCmpInt y z = .lt) : pyCmpInt x z = .lt :=
  (pyCmpInt_lt_iff x z).mpr
    (lt_trans ((pyCmpInt_lt_iff x y).mp h1) ((pyCmpInt_lt_iff y z).mp h2))

theorem pyCmpInt_swap (x y : Int) : pyCmpInt y x = (pyCmpInt x y).swap := by
  rcases lt_trichotomy x y with h | h | h
  · rw [(pyCmpInt_lt_iff x y).mpr h, (pyCmpInt_gt_iff y x).mpr h]; rfl
  · subst h; rw [pyCmpInt_refl]; rfl
  · rw [(pyCmpInt_gt_iff x y).mpr h, (pyCmpInt_lt_iff y x).mpr h]; rfl

theorem pyCmpStr_lt_iff (x y : String) : pyCmpStr x y = .lt ↔ x < y := by
  unfold pyCmpStr
  split_ifs with h1 h2
  · simp [h1]
  · simp [h1]
  · simp [h1]

theorem pyCmpStr_gt_iff (x y : String) : pyCmpStr x y = .gt ↔ y < x := by
  unfold pyCmpStr
  split_ifs with h1 h2
  · exact iff_of_false (by simp) (asymm h1)
  · exact iff_of_false (by simp) (by rw [h2]; exact lt_irrefl y)
  · refine iff_of_true rfl ?_
    rcases lt_trichotomy x y with h | h | h
    · exact absurd h h1
    · exact absurd h h2
    · exact h

theorem pyCmpStr_eq_val {x y : String} (h : pyCmpStr x y = .eq) : x = y := by
  unfold pyCmpStr at h
  split_ifs at h with h1 h2
  exact h2

theorem pyCmpStr_refl (x : String) : pyCmpStr x x = .eq := by
  simp [pyCmpStr, lt_irrefl]

theorem pyCmpStr_lt_trans {x y z : String} (h1 : pyCmpStr x y = .lt)
    (h2 : pyCmpStr y z = .lt) : pyCmpStr x z = .lt :=
  (pyCmpStr_lt_iff x z).mpr
    (lt_trans ((pyCmpStr_lt_iff x y).mp h1) ((pyCmpStr_lt_iff y z).mp h2))

theorem pyCmpStr_swap (x y : String) : pyCmpStr y x = (pyCmpStr x y).swap := by
  rcases lt_trichotomy x y with h | h | h
  · rw [(pyCmpStr_lt_iff x y).mpr h, (pyCmpStr_gt_iff y x).mpr h]; rfl
  · subst h; rw [pyCmpStr_refl]; rfl
  · rw [(pyCmpStr_gt_iff x y).mpr h, (pyCmpStr_lt_iff y x).mpr h]; rfl

theorem pyCmpBool_eq_val : ∀ x y : Bool, pyCmpBool x y = .eq → x = y := by decide

theorem pyCmpBool_refl : ∀ x : Bool, pyCmpBool x x = .eq := by decide

theorem pyCmpBool_lt_trans : ∀ x y z : Bool,
    pyCmpBool x y = .lt → pyCmpBool y z = .lt → pyCmpBool x z = .lt := by decide

theorem pyCmpBool_swap : ∀ x y : Bool, pyCmpBool y x = (pyCmpBool x y).swap := by
  decide

theorem pyCmpPair_eq_eq (a b : ℕ × Int) : pyCmpPair a b = .eq ↔ a = b := by
  rcases a with ⟨a1, a2⟩
  rcases b with ⟨b1, b2⟩
  unfold pyCmpPair pyCmpNat pyCmpInt
  split_ifs <;> simp_all [Prod.ext_iff] <;> omega

theorem pyCmpPair_eq_val {a b : ℕ × Int} (h : pyCmpPair a b = .eq) : a = b :=
  (pyCmpPair_eq_eq a b).mp h

theorem pyCmpPair_refl (a : ℕ × Int) : pyCmpPair a a = .eq :=
  (pyCmpPair_eq_eq a a).mpr rfl

theorem keyLt_trans {a b c : ℕ × Int} (h1 : keyLt a b) (h2 : keyLt b c) :
    keyLt a c := by
  unfold keyLt at h1 h2 ⊢
  omega

theorem pyCmpPair_lt_trans {a b c : ℕ × Int} (h1 : pyCmpPair a b = .lt)
    (h2 : pyCmpPair b c = .lt) : pyCmpPair a c = .lt :=
  (pyCmpPair_eq_lt a c).mpr
    (keyLt_trans ((pyCmpPair_eq_lt a b).mp h1) ((pyCmpPair_eq_lt b c).mp h2))

theorem pyCmpPair_swap (a b : ℕ × Int) : pyCmpPair b a = (pyCmpPair a b).swap := by
  cases h : pyCmpPair a b with
  | lt => rw [(pyCmpPair_eq_gt b a).mpr ((pyCmpPair_eq_lt a b).mp h)]; rfl
  | eq =>
    obtain rfl := pyCmpPair_eq_val h
    rw [pyCmpPair_refl]; rfl
  | gt => rw [(pyCmpPair_eq_lt b a).mpr ((pyCmpPair_eq_gt a b).mp h)]; rfl

theorem pyCmpOpt_eq_val {α : Type} (c : α → α → Ordering)
    (hE : ∀ x y, c x y = .eq → x = y) :
    ∀ oa ob, pyCmpOpt c oa ob = .ok .eq → oa = ob := by
  intro oa ob h
  cases oa with
  | none =>
    cases ob with
    | none => rfl
    | some y => simp [pyCmpOpt] at h
  | some x =>
    cases ob with
    | none => simp [pyCmpOpt] at h
    | some y => rw [hE x y (by simpa [pyCmpOpt] using h)]

theorem pyCmpOpt_lt_trans {α : Type} (c : α → α → Ordering)
    (hT : ∀ x y z, c x y = .lt → c y z = .lt → c x z = .lt) :
    ∀ oa ob oc, pyCmpOpt c oa ob = .ok .lt → pyCmpOpt c ob oc = .ok .lt →
      pyCmpOpt c oa oc = .ok .lt := by
  intro oa ob oc h1 h2
  cases oa <;> cases ob <;> cases oc <;> simp [pyCmpOpt] at h1 h2 ⊢
  exact hT _ _ _ h1 h2

theorem pyCmpOpt_swap {α : Type} (c : α → α → Ordering)
    (hS : ∀ x y, c y x = (c x y).swap) :
    ∀ oa ob, pyCmpOpt c ob oa = (pyCmpOpt c oa ob).map Ordering.swap := by
  intro oa ob
  cases oa with
  | none =>
    cases ob with
    | none => rfl
    | some y => rfl
  | some x =>
    cases ob with
    | none => rfl
    | some y =>
      simp only [pyCmpOpt]
      rw [hS x y]
      rfl

theorem pyCmpOpt_refl {α : Type} (c : α → α → Ordering)
    (hR : ∀ x, c x x = .eq) : ∀ oa, pyCmpOpt c oa oa = .ok .eq := by
  intro oa
  cases oa <;> simp [pyCmpOpt, hR]

theorem lexE_lt_trans (u v w : Except Unit Ordering)
    (ru rv rw : Unit → Except Unit Ordering)
    (heq1 : u = .ok .eq → v = w)
    (heq2 : v = .ok .eq → u = w)
    (htr : u = .ok .lt → v = .ok .lt → w = .ok .lt)
    (hrest : ru () = .ok .lt → rv () = .ok .lt → rw () = .ok .lt)
    (h1 : lexE u ru = .ok .lt) (h2 : lexE v rv = .ok .lt) :
    lexE w rw = .ok .lt := by
  cases u with
  | error a => simp [lexE] at h1
  | ok o =>
    cases o with
    | eq =>
      have hru : ru () = .ok .lt := by simpa [lexE] using h1
      have hvw := heq1 rfl
      cases v with
      | error a => simp [lexE] at h2
      | ok o2 =>
        cases o2 with
        | eq =>
          have hrv : rv () = .ok .lt := by simpa [lexE] using h2
          rw [← hvw]
          simpa [lexE] using hrest hru hrv
        | lt =>
          rw [← hvw]
          simp [lexE]
        | gt => simp [lexE] at h2
    | lt =>
      cases v with
      | error a => simp [lexE] at h2
      | ok o2 =>
        cases o2 with
        | eq =>
          rw [← heq2 rfl]
          simp [lexE]
        | lt =>
          rw [htr rfl rfl]
          simp [lexE]
        | gt => simp [lexE] at h2
    | gt => simp [lexE] at h1

theorem lexE_lt_trans_ok {α : Type} (f : α → α → Ordering) (pa pb pc : α)
    (hE : ∀ x y, f x y = .eq → x = y)
    (hT : ∀ x y z, f x y = .lt → f y z = .lt → f x z = .lt)
    (ru rv rw : Unit → Except Unit Ordering)
    (hrest : ru () = .ok .lt → rv () = .ok .lt → rw () = .ok .lt)
    (h1 : lexE (.ok (f pa pb)) ru = .ok .lt)
    (h2 : lexE (.ok (f pb pc)) rv = .ok .lt) :
    lexE (.ok (f pa pc)) rw = .ok .lt := by
  refine lexE_lt_trans _ _ _ ru rv rw ?_ ?_ ?_ hrest h1 h2
  · intro h
    rw [hE pa pb (Except.ok.inj h)]
  · intro h
    rw [hE pb pc (Except.ok.inj h)]
  · intro hu hv
    rw [hT pa pb pc (Except.ok.inj hu) (Except.ok.inj hv)]

theorem lexE_lt_trans_opt {α : Type} (c : α → α → Ordering)
    (oa ob oc : Option α)
    (hE : ∀ x y, c x y = .eq → x = y)
    (hT : ∀ x y z, c x y = .lt → c y z = .lt → c x z = .lt)
    (ru rv rw : Unit → Except Unit Ordering)
    (hrest : ru () = .ok .lt → rv () = .ok .lt → rw () = .ok .lt)
    (h1 : lexE (pyCmpOpt c oa ob) ru = .ok .lt)
    (h2 : lexE (pyCmpOpt c ob oc) rv = .ok .lt) :
    lexE (pyCmpOpt c oa oc) rw = .ok .lt := by
  refine lexE_lt_trans _ _ _ ru rv rw ?_ ?_ ?_ hrest h1 h2
  · intro h
    rw [pyCmpOpt_eq_val c hE oa ob h]
  · intro h
    rw [pyCmpOpt_eq_val c hE ob oc h]
  · exact pyCmpOpt_lt_trans c hT oa ob oc

/-- Transitivity of the dataclass `<` where it returns a decided result. -/
theorem pyCmp_lt_trans {a b c : ModEvent} (h1 : pyCmp a b = .ok .lt)
    (h2 : pyCmp b c = .ok .lt) : pyCmp a c = .ok .lt := by
  unfold pyCmp at h1 h2 ⊢
  refine lexE_lt_trans_ok pyCmpPair _ _ _ (fun x y h => pyCmpPair_eq_val h)
    (fun x y z hx hy => pyCmpPair_lt_trans hx hy) _ _ _ ?_ h1 h2
  intro h1 h2
  refine lexE_lt_trans_ok pyCmpBool _ _ _ pyCmpBool_eq_val pyCmpBool_lt_trans
    _ _ _ ?_ h1 h2
  intro h1 h2
  refine lexE_lt_trans_ok pyCmpInt _ _ _ (fun x y h => pyCmpInt_eq_val h)
    (fun x y z hx hy => pyCmpInt_lt_trans hx hy) _ _ _ ?_ h1 h2
  intro h1 h2
  refine lexE_lt_trans_opt pyCmpStr _ _ _ (fun x y h => pyCmpStr_eq_val h)
    (fun x y z hx hy => pyCmpStr_lt_trans hx hy) _ _ _ ?_ h1 h2
  intro h1 h2
  refine lexE_lt_trans_opt pyCmpStr _ _ _ (fun x y h => pyCmpStr_eq_val h)
    (fun x y z hx hy => pyCmpStr_lt_trans hx hy) _ _ _ ?_ h1 h2
  intro h1 h2
  refine lexE_lt_trans_opt pyCmpStr _ _ _ (fun x y h => pyCmpStr_eq_val h)
    (fun x y z hx hy => pyCmpStr_lt_trans hx hy) _ _ _ ?_ h1 h2
  intro h1 h2
  refine lexE_lt_trans_opt pyCmpInt _ _ _ (fun x y h => pyCmpInt_eq_val h)
    (fun x y z hx hy => pyCmpInt_lt_trans hx hy) _ _ _ ?_ h1 h2
  intro h1 h2
  refine lexE_lt_trans_opt pyCmpStr _ _ _ (fun x y h => pyCmpStr_eq_val h)
    (fun x y z hx hy => pyCmpStr_lt_trans hx hy) _ _ _ ?_ h1 h2
  intro h1 h2
  refine lexE_lt_trans_ok pyCmpStr _ _ _ (fun x y h => pyCmpStr_eq_val h)
    (fun x y z hx hy => pyCmpStr_lt_trans hx hy) _ _ _ ?_ h1 h2
  intro h1 h2
  rw [pyCmpStr_lt_trans (Except.ok.inj h1) (Except.ok.inj h2)]

theorem lexE_swap (u v : Except Unit Ordering)
    (ru rv : Unit → Except Unit Ordering)
    (hc : v = u.map Ordering.swap)
    (hrest : rv () = (ru ()).map Ordering.swap) :
    lexE v rv = (lexE u ru).map Ordering.swap := by
  cases u with
  | error a =>
    subst hc
    simp [lexE, Except.map]
  | ok o =>
    subst hc
    cases o <;> simp [lexE, Except.map, Ordering.swap, hrest]

/-- Mirror symmetry of the dataclass comparison. -/
theorem pyCmp_swap (a b : ModEvent) : pyCmp b a = (pyCmp a b).map Ordering.swap := by
  unfold pyCmp
  refine lexE_swap _ _ _ _ (by rw [pyCmpPair_swap]; rfl) ?_
  refine lexE_swap _ _ _ _ (by rw [pyCmpBool_swap]; rfl) ?_
  refine lexE_swap _ _ _ _ (by rw [pyCmpInt_swap]; rfl) ?_
  refine lexE_swap _ _ _ _ (pyCmpOpt_swap pyCmpStr pyCmpStr_swap _ _) ?_
  refine lexE_swap _ _ _ _ (pyCmpOpt_swap pyCmpStr pyCmpStr_swap _ _) ?_
  refine lexE_swap _ _ _ _ (pyCmpOpt_swap pyCmpStr pyCmpStr_swap _ _) ?_
  refine lexE_swap _ _ _ _ (pyCmpOpt_swap pyCmpInt pyCmpInt_swap _ _) ?_
  refine lexE_swap _ _ _ _ (pyCmpOpt_swap pyCmpStr pyCmpStr_swap _ _) ?_
  refine lexE_swap _ _ _ _ (by rw [pyCmpStr_swap]; rfl) ?_
  rw [pyCmpStr_swap]
  rfl

/-- The dataclass comparison of an event with itself is equality. -/
theorem pyCmp_refl (a : ModEvent) : pyCmp a a = .ok .eq := by
  simp [pyCmp, lexE, pyCmpPair_refl, pyCmpBool_refl, pyCmpInt_refl, pyCmpStr_refl,
    pyCmpOpt_refl pyCmpStr pyCmpStr_refl, pyCmpOpt_refl pyCmpInt pyCmpInt_refl]

theorem pyLt_eq_true_iff (a b : ModEvent) :
    pyLt a b = .ok true ↔ pyCmp a b = .ok .lt := by
  unfold pyLt
  cases h : pyCmp a b with
  | error u => simp [Except.map]
  | ok o => cases o <;> simp [Except.map]

theorem pyLt_self (a : ModEvent) : pyLt a a = .ok false := by
  unfold pyLt
  rw [pyCmp_refl]
  rfl

theorem pyLt_true_asymm {a b : ModEvent} (h : pyLt a b = .ok true) :
    pyLt b a = .ok false := by
  have hlt := (pyLt_eq_true_iff a b).mp h
  unfold pyLt
  rw [pyCmp_swap a b, hlt]
  rfl

theorem pyLt_true_trans {a b c : ModEvent} (h1 : pyLt a b = .ok true)
    (h2 : pyLt b c = .ok true) : pyLt a c = .ok true :=
  (pyLt_eq_true_iff a c).mpr
    (pyCmp_lt_trans ((pyLt_eq_true_iff a b).mp h1) ((pyLt_eq_true_iff b c).mp h2))

/-- The scan result is minimal under the full dataclass comparison: no
scanned entry (and not the seed) compares strictly below it. -/
theorem pqSelect_pyLt_min :
    ∀ (rest : List ModEvent) (cand e : ModEvent),
      pqSelect cand rest = .ok e →
      (e = cand ∨ pyLt e cand = .ok true) ∧
        ∀ x ∈ rest, pyLt x e ≠ .ok true := by
  intro rest
  induction rest with
  | nil =>
    intro cand e h
    simp only [pqSelect, Except.ok.injEq] at h
    subst h
    exact ⟨Or.inl rfl, by simp⟩
  | cons x rs ih =>
    intro cand e h
    simp only [pqSelect] at h
    cases hb : pyLt x cand with
    | error u => rw [hb] at h; cases h
    | ok b =>
      rw [hb] at h
      cases b with
      | true =>
        obtain ⟨hrel, hnone⟩ := ih x e (by simpa using h)
        refine ⟨?_, ?_⟩
        · rcases hrel with rfl | hlt
          · exact Or.inr hb
          · exact Or.inr (pyLt_true_trans hlt hb)
        · intro y hy
          rcases List.mem_cons.mp hy with rfl | hy
          · rcases hrel with rfl | hlt
            · rw [pyLt_self]; simp
            · rw [pyLt_true_asymm hlt]; simp
          · exact hnone y hy
      | false =>
        obtain ⟨hrel, hnone⟩ := ih cand e (by simpa using h)
        refine ⟨hrel, ?_⟩
        · intro y hy
          rcases List.mem_cons.mp hy with rfl | hy
          · intro hye
            rcases hrel with rfl | hlt
            · rw [hye] at hb; cases hb
            · have := pyLt_true_trans hye hlt
              rw [this] at hb; cases hb
          · exact hnone y hy

/-- A strictly smaller `sort_index` decides the dataclass comparison at its
first field: `a < b` in Python. -/
theorem pyLt_of_keyLt {a b : ModEvent}
    (h : keyLt (sortIndex a) (sortIndex b)) : pyLt a b = .ok true := by
  unfold pyLt pyCmp lexE
  rw [(pyCmpPair_eq_lt _ _).mpr h]
  rfl

theorem keyLe_of_pyLt_true {a b : ModEvent} (h : pyLt a b = .ok true) :
    keyLe (sortIndex a) (sortIndex b) := by
  by_contra hn
  have hgt : pyCmpPair (sortIndex a) (sortIndex b) = .gt :=
    (pyCmpPair_eq_gt _ _).mpr (keyLt_of_not_keyLe hn)
  unfold pyLt pyCmp lexE at h
  rw [hgt] at h
  simp [Except.map] at h

theorem keyLe_of_pyLt_false {x c : ModEvent} (h : pyLt x c = .ok false) :
    keyLe (sortIndex c) (sortIndex x) := by
  by_contra hn
  have hlt : pyLt x c = .ok true := pyLt_of_keyLt (keyLt_of_not_keyLe hn)
  rw [h] at hlt
  simp at hlt

/-- The scan returns an entry of the scanned segment (or the seed) whose key
is minimal among everything it saw. -/
theorem pqSelect_spec :
    ∀ (rest : List ModEvent) (cand e : ModEvent),
      pqSelect cand rest = .ok e →
      (e = cand ∨ e ∈ rest) ∧ keyLe (sortIndex e) (sortIndex cand) ∧
        ∀ x ∈ rest, keyLe (sortIndex e) (sortIndex x) := by
  intro rest
  induction rest with
  | nil =>
    intro cand e h
    simp only [pqSelect, Except.ok.injEq] at h
    subst h
    exact ⟨Or.inl rfl, keyLe_refl _, by simp⟩
  | cons x rs ih =>
    intro cand e h
    simp only [pqSelect] at h
    cases hb : pyLt x cand with
    | error u => rw [hb] at h; cases h
    | ok b =>
      rw [hb] at h
      cases b with
      | true =>
        obtain ⟨hm, hle, hall⟩ := ih x e (by simpa using h)
        have hxc : keyLe (sortIndex x) (sortIndex cand) := keyLe_of_pyLt_true hb
        refine ⟨?_, keyLe_trans hle hxc, ?_⟩
        · rcases hm with rfl | hm
          · exact Or.inr (List.mem_cons_self _ _)
          · exact Or.inr (List.mem_cons_of_mem _ hm)
        · intro y hy
          rcases List.mem_cons.mp hy with rfl | hy
          · exact hle
          · exact hall y hy
      | false =>
        obtain ⟨hm, hle, hall⟩ := ih cand e (by simpa using h)
        have hcx : keyLe (sortIndex cand) (sortIndex x) := keyLe_of_pyLt_false hb
        refine ⟨?_, hle, ?_⟩
        · rcases hm with rfl | hm
          · exact Or.inl rfl
          · exact Or.inr (List.mem_cons_of_mem _ hm)
        · intro y hy
          rcases List.mem_cons.mp hy with rfl | hy
          · exact keyLe_trans hle hcx
          · exact hall y hy

/-- C5, counterexample.  The claim says requests with equal urgency and equal
quantity are returned in insertion order.  `evA` (order 5) is pushed before
`evB` (order 3); both are non-urgent with quantity 2, yet `pop` returns
`evB` first: `dataclass(order=True)` keeps comparing the remaining fields —
here `order_id` — after the `(prio, qty)` key ties, so insertion order is
not what breaks the tie. -/
theorem c5_counterexample :
    pqPop (pqPut (pqPut [] evA) evB) = some (.ok (evB, [evA])) ∧
    evA.urgent = evB.urgent ∧ effQty evA = effQty evB ∧ evB ≠ evA := by
  refine ⟨rfl, rfl, rfl, by decide⟩

/-- C5 (amended): `pop` returns an entry minimal under the dataclass order,
whose leading key is `sort_index = (0 if urgent else 1, qty if a positive
integer else 9999)`: an urgent request is returned before any non-urgent
one, and among requests of equal urgency one with the smallest effective
quantity is returned — a missing or non-positive quantity counting as the
sentinel 9999 (not "the largest possible quantity": a stated quantity above
9999 is dequeued after a missing one).  Remaining ties are decided by the
further dataclass fields (`urgent`, `order_id`, the field values, the
request id), not by insertion order: the third conjunct states minimality
under the complete comparison `pyLt` — no queued request compares strictly
below the returned one under the full field tuple — so whenever two
`(prio, qty)`-tied requests differ in a later field, the smaller one under
that field comparison is returned regardless of push order. -/
theorem c5_pop_priority_order (q : List ModEvent) (e : ModEvent)
    (q' : List ModEvent) (h : pqPop q = some (.ok (e, q'))) :
    e ∈ q ∧ q' = q.erase e ∧
    (∀ x ∈ q, pyLt x e ≠ .ok true) ∧
    (∀ x ∈ q, keyLe (sortIndex e) (sortIndex x)) ∧
    ((∃ x ∈ q, x.urgent = true) → e.urgent = true) ∧
    (∀ x ∈ q, x.urgent = e.urgent → effQty e ≤ effQty x) := by
  cases q with
  | nil => cases h
  | cons x rest =>
    simp only [pqPop] at h
    cases hs : pqSelect x rest with
    | error u => rw [hs] at h; simp at h
    | ok e0 =>
      rw [hs] at h
      simp only [Option.some.injEq, Except.ok.injEq, Prod.mk.injEq] at h
      obtain ⟨rfl, hq⟩ := h
      obtain ⟨hm, hle, hall⟩ := pqSelect_spec rest x e0 hs
      obtain ⟨hrel, hnone⟩ := pqSelect_pyLt_min rest x e0 hs
      have hmem : e0 ∈ x :: rest := by
        rcases hm with rfl | hm
        · exact List.mem_cons_self _ _
        · exact List.mem_cons_of_mem _ hm
      have hmin : ∀ y ∈ x :: rest, keyLe (sortIndex e0) (sortIndex y) := by
        intro y hy
        rcases List.mem_cons.mp hy with rfl | hy
        · exact hle
        · exact hall y hy
      have hpymin : ∀ y ∈ x :: rest, pyLt y e0 ≠ .ok true := by
        intro y hy
        rcases List.mem_cons.mp hy with rfl | hy
        · rcases hrel with rfl | hlt
          · rw [pyLt_self]; simp
          · rw [pyLt_true_asymm hlt]; simp
        · exact hnone y hy
      refine ⟨hmem, hq.symm, hpymin, hmin, ?_, ?_⟩
      · rintro ⟨u, hu, hurg⟩
        by_contra hne
        have heu : e0.urgent = false := by
          cases he : e0.urgent
          · rfl
          · exact absurd he hne
        have hk := hmin u hu
        unfold keyLe sortIndex prio at hk
        rw [hurg, heu] at hk
        simp at hk
      · intro y hy hsame
        have hk := hmin y hy
        unfold keyLe sortIndex prio at hk
        rw [hsame] at hk
        rcases hk with hk | ⟨-, hk⟩
        · exact absurd hk (lt_irrefl _)
        · exact hk

/-- C5 witness: in a queue holding a non-urgent and an urgent request, pop
returns the urgent one, a member of the queue, minimal both in key and under
the full dataclass comparison. -/
theorem c5_pop_priority_order_witness :
    evU ∈ [evN, evU] ∧ evU.urgent = true ∧
    (∀ x ∈ [evN, evU], keyLe (sortIndex evU) (sortIndex x)) ∧
    (∀ x ∈ [evN, evU], pyLt x evU ≠ .ok true) := by
  have h := c5_pop_priority_order [evN, evU] evU [evN] rfl
  exact ⟨h.1, h.2.2.2.2.1 ⟨evU, by simp, rfl⟩, h.2.2.2.1, h.2.2.1⟩

end PizzaMod

